import Mathlib

/-!
# Verification of the PDF annotation editor (`annotation_editor.py`)

A shallow embedding of the annotation data model and of the
`AnnotationForm` synchronizer, together with theorems about the
lifecycle of the external document handle, extraction, single-field
update, bulk update from imported JSON, export and persistence.

Modelling conventions:
* Python dictionaries, lists and JSON scalars obtained from `json.load`
  are modelled by the inductive type `Json`; a JSON `null` is the Python
  value `None`.
* Machine floats appearing in widget rectangles are modelled by `ℚ`;
  Python's `int(...)` on them is truncation toward zero (`pyInt`).
* The external PDF engine (PyMuPDF) is modelled by `EngineDoc`:
  a list of pages, each page exposing its widget enumeration as an
  `Except` (the enumeration itself may raise) of a list of
  `Except String Widget` (touching a single widget's attributes may
  raise, which the extraction loop catches and skips).
* A PyMuPDF `Document` object is truthy while open; `close()` releases
  the underlying handle, and the closed object is falsy while still
  being distinct from `None`.  Calling `save` on a closed document
  raises.  `DocHandle` records the document data and its closed flag.
* Fallible Python code returns `Except String α`; the string is the
  message of the exception that propagates.
-/

/-- Python/JSON values as produced by `json.load`: dict, list, str,
int, bool, None. -/
inductive Json where
  | str (s : String)
  | int (n : ℤ)
  | bool (b : Bool)
  | null
  | arr (xs : List Json)
  | obj (kvs : List (String × Json))
  deriving Repr

/-- Python `==` between a `str` on the left and an arbitrary loaded
JSON value on the right: true exactly when the value is that same
string (a string never equals a number, boolean, `None`, list or
dict). -/
def pyEqStr (s : String) (v : Option Json) : Bool :=
  match v with
  | some (.str t) => s == t
  | _ => false

/-- Python truthiness of a JSON value: empty containers, `""`, `0`,
`False` and `None` are falsy. -/
def jsonTruthy : Json → Bool
  | .str s => !s.isEmpty
  | .int n => n != 0
  | .bool b => b
  | .null => false
  | .arr xs => !xs.isEmpty
  | .obj kvs => !kvs.isEmpty

/-- `d.get(k)` on a Python dict: `None` both for a missing key and for a
key stored with value `None`, so the result is normalised to `none` in
both cases.  On a non-dict the caller raises instead (see `jGetCall`). -/
def pyGet (j : Json) (k : String) : Option Json :=
  match j with
  | .obj kvs =>
    match kvs.lookup k with
    | some .null => none
    | some v => some v
    | none => none
  | _ => none

/-- Truthiness of an optional Python value (`None` is falsy). -/
def optTruthy : Option Json → Bool
  | none => false
  | some j => jsonTruthy j

/-- A `.get` method call: raises `AttributeError` unless the receiver is
a dict. -/
def jGetCall (j : Json) (k : String) : Except String (Option Json) :=
  match j with
  | .obj _ => .ok (pyGet j k)
  | _ => .error "AttributeError: object has no attribute get"

/-- Python `str(...)` restricted to the values that can reach a widget
assignment in this program (strings in every reachable case). -/
def pyStr : Json → String
  | .str s => s
  | .int n => toString n
  | .bool b => if b then "True" else "False"
  | .null => "None"
  | .arr _ => ""
  | .obj _ => ""

/-- Python `int(...)` on a rational (float) value: truncation toward
zero. -/
def pyInt (q : ℚ) : ℤ := if q < 0 then ⌈q⌉ else ⌊q⌋

/-- Python sequence indexing `xs[i]` with negative-index wraparound;
`none` is an `IndexError`. -/
def pyIndex {α : Type} (xs : List α) (i : ℤ) : Option (ℕ × α) :=
  if h : 0 ≤ i ∧ i < (xs.length : ℤ) then
    some (i.toNat, xs.get ⟨i.toNat, by omega⟩)
  else if h' : 0 ≤ i + (xs.length : ℤ) ∧ i < 0 then
    some ((i + xs.length).toNat, xs.get ⟨(i + xs.length).toNat, by omega⟩)
  else none

/-- `@dataclass Position` (annotation_editor.py lines 6-12). -/
structure Position where
  x : ℤ
  y : ℤ
  width : ℤ
  height : ℤ
  unit : String
  deriving Repr, DecidableEq

/-- `@dataclass Formatting` (lines 14-21); every field optional. -/
structure Formatting where
  font_size : Option ℤ := none
  font_family : Option String := none
  alignment : Option String := none
  max_length : Option ℤ := none
  pattern : Option String := none
  required : Option Bool := none
  deriving Repr, DecidableEq

/-- `@dataclass DataReference` (lines 23-26). -/
structure DataReference where
  path : String
  default_value : Option String := none
  deriving Repr, DecidableEq

/-- `@dataclass Annotation` (lines 28-38). -/
structure Annotation where
  id : String
  type : String
  position : Position
  formatting : Formatting
  data_reference : DataReference
  label : Option String := none
  deriving Repr, DecidableEq

/-- `@dataclass Pages` (lines 40-43). -/
structure Pages where
  page_number : ℤ
  annotations : List Annotation
  deriving Repr, DecidableEq

/-- `@dataclass UpdateField` (lines 45-50).  `default_value` and
`label` hold the raw values taken from the input dict. -/
structure UpdateField where
  default_value : Option Json := none
  label : Option Json := none
  position : Option Position := none
  formatting : Option Formatting := none
  deriving Repr

/-- The five keyword parameters of `Position`. -/
def positionKeys : List String := ["x", "y", "width", "height", "unit"]

/-- The six keyword parameters of `Formatting`. -/
def formattingKeys : List String :=
  ["font_size", "font_family", "alignment", "max_length", "pattern", "required"]

/-- `Position(**pos)`: `Position` has no defaults, so the call raises a
`TypeError` unless the dict supplies exactly the five parameters (an
unexpected key also raises).  Values are required to be of the
annotated types (ints and a string), which holds for every dict this
program builds. -/
def positionOfKwargs (j : Json) : Except String Position :=
  match j with
  | .obj kvs =>
    if kvs.all (fun kv => kv.1 ∈ positionKeys) then
      match kvs.lookup "x", kvs.lookup "y", kvs.lookup "width",
          kvs.lookup "height", kvs.lookup "unit" with
      | some (.int x), some (.int y), some (.int w), some (.int h), some (.str u) =>
        .ok ⟨x, y, w, h, u⟩
      | _, _, _, _, _ =>
        .error "TypeError: Position missing required positional argument"
    else .error "TypeError: Position got an unexpected keyword argument"
  | _ => .error "TypeError: argument after ** must be a mapping"

/-- `Formatting(**fmt)`: every parameter defaults to `None`, so any
subset of the six keys is accepted; an unexpected key raises.  A key
stored with JSON `null` yields the default `None`. -/
def formattingOfKwargs (j : Json) : Except String Formatting :=
  match j with
  | .obj kvs =>
    if kvs.all (fun kv => kv.1 ∈ formattingKeys) then
      let fsz := match kvs.lookup "font_size" with
        | some (.int n) => some (some n) | some .null => some none
        | none => some none | some _ => none
      let ffam := match kvs.lookup "font_family" with
        | some (.str s) => some (some s) | some .null => some none
        | none => some none | some _ => none
      let al := match kvs.lookup "alignment" with
        | some (.str s) => some (some s) | some .null => some none
        | none => some none | some _ => none
      let ml := match kvs.lookup "max_length" with
        | some (.int n) => some (some n) | some .null => some none
        | none => some none | some _ => none
      let pat := match kvs.lookup "pattern" with
        | some (.str s) => some (some s) | some .null => some none
        | none => some none | some _ => none
      let req := match kvs.lookup "required" with
        | some (.bool b) => some (some b) | some .null => some none
        | none => some none | some _ => none
      match fsz, ffam, al, ml, pat, req with
      | some a, some b, some c, some d, some e, some f => .ok ⟨a, b, c, d, e, f⟩
      | _, _, _, _, _, _ => .error "TypeError: ill-typed Formatting value"
    else .error "TypeError: Formatting got an unexpected keyword argument"
  | _ => .error "TypeError: argument after ** must be a mapping"

/-- `UpdateField.from_dict` (lines 52-62): takes the raw
`default_value` and `label`, and converts `position`/`formatting`
through their constructors, but only when the sub-dict is truthy (a
missing, `null` or empty sub-dict is treated as absent). -/
def UpdateField.from_dict (data : Json) : Except String UpdateField := do
  let pos := pyGet data "position"
  let fmt := pyGet data "formatting"
  let position ← match pos with
    | some p => if jsonTruthy p then (positionOfKwargs p).map some else pure none
    | none => pure none
  let formatting ← match fmt with
    | some f => if jsonTruthy f then (formattingOfKwargs f).map some else pure none
    | none => pure none
  pure { default_value := pyGet data "default_value"
         label := pyGet data "label"
         position := position
         formatting := formatting }

/-- The rectangle of a widget, in float document coordinates. -/
structure Rect where
  x0 : ℚ
  y0 : ℚ
  x1 : ℚ
  y1 : ℚ
  deriving Repr, DecidableEq

/-- A live form-field widget of the external engine, with the
attributes this program reads and writes. -/
structure Widget where
  field_name : String
  field_type_string : String
  field_value : String
  field_label : Option String
  rect : Rect
  text_fontsize : ℤ
  text_font : String
  deriving Repr, DecidableEq

instance {ε α : Type} [DecidableEq ε] [DecidableEq α] : DecidableEq (Except ε α) :=
  fun a b =>
    match a, b with
    | .ok x, .ok y =>
      if h : x = y then .isTrue (by rw [h]) else
        .isFalse (fun c => h (by cases c; rfl))
    | .error x, .error y =>
      if h : x = y then .isTrue (by rw [h]) else
        .isFalse (fun c => h (by cases c; rfl))
    | .ok _, .error _ => .isFalse (fun c => by cases c)
    | .error _, .ok _ => .isFalse (fun c => by cases c)

/-- One engine page: `page.widgets()` may itself raise (outer
`Except`), and touching a single enumerated widget may raise (inner
`Except`, caught and skipped by extraction). -/
structure EnginePage where
  widgets : Except String (List (Except String Widget))
  deriving Repr, DecidableEq

/-- An external PDF document: its ordered pages. -/
structure EngineDoc where
  pages : List EnginePage
  deriving Repr, DecidableEq

/-- The session's reference to an engine `Document` object: its data
and whether `close()` has been called on it. -/
structure DocHandle where
  data : EngineDoc
  isClosed : Bool
  deriving Repr, DecidableEq

/-- Truthiness of `self.doc`: `None` is falsy, an open document is
truthy, a closed document is falsy. -/
def docTruthy : Option DocHandle → Bool
  | none => false
  | some h => !h.isClosed

/-- The file system seen by `fitz.open`: `none` means opening raises. -/
def FS : Type := String → Option EngineDoc

/-- The state of an `AnnotationForm` instance (lines 64-72). -/
structure AnnotationForm where
  pdf_path : String
  name : String
  year : ℤ
  version : String
  doc : Option DocHandle
  pages : List Pages
  deriving Repr, DecidableEq

/-! ## Extraction (`__read_pdf`, lines 74-130) -/

/-- `__map_pymupdf_field_type` (lines 132-142): fixed mapping with
default `"text"`. -/
def map_pymupdf_field_type (field_type : String) : String :=
  match field_type with
  | "Text" => "text"
  | "CheckBox" => "checkbox"
  | "RadioButton" => "radio"
  | "ComboBox" => "dropdown"
  | "ListBox" => "list"
  | "Signature" => "signature"
  | _ => "text"

/-- The fixed formatting every extracted annotation receives
(line 112): `Formatting(8, "Arial", "left", 100, "", False)`. -/
def defaultFormatting : Formatting :=
  ⟨some 8, some "Arial", some "left", some 100, some "", some false⟩

/-- Lines 89-114: build one `Annotation` from a widget; `n` is
`len(annotations)`, the number of annotations already collected on the
page, used for the fallback name when `field_name` is falsy. -/
def mkAnnot (n : ℕ) (w : Widget) : Annotation :=
  let field_name := if w.field_name = "" then "field_" ++ toString n else w.field_name
  { id := field_name
    type := map_pymupdf_field_type w.field_type_string
    label := w.field_label
    position := ⟨pyInt w.rect.x0, pyInt w.rect.y0,
                 pyInt (w.rect.x1 - w.rect.x0), pyInt (w.rect.y1 - w.rect.y0), "pt"⟩
    formatting := defaultFormatting
    data_reference := ⟨field_name, some w.field_value⟩ }

/-- The widget loop of lines 87-119: a widget whose attribute access
raises is skipped; `n` tracks `len(annotations)`. -/
def extractAnnotsAux : List (Except String Widget) → ℕ → List Annotation
  | [], _ => []
  | .error _ :: rest, n => extractAnnotsAux rest n
  | .ok w :: rest, n => mkAnnot n w :: extractAnnotsAux rest (n + 1)

/-- All annotations successfully extracted from one page's widget
enumeration. -/
def extractAnnots (items : List (Except String Widget)) : List Annotation :=
  extractAnnotsAux items 0

/-- The page loop of lines 79-123: walks the document's pages in
order, appending a `Pages` entry to the accumulator only when at least
one annotation was extracted; a raising widget enumeration aborts the
walk with the pages collected so far. -/
def walkPages : List EnginePage → ℕ → List Pages → List Pages × Except String Unit
  | [], _, acc => (acc, .ok ())
  | p :: rest, pageNum, acc =>
    match p.widgets with
    | .error e => (acc, .error e)
    | .ok items =>
      let anns := extractAnnots items
      walkPages rest (pageNum + 1)
        (if anns.isEmpty then acc else acc ++ [⟨(pageNum : ℤ) + 1, anns⟩])

/-- `__read_pdf` (lines 74-130): open the document, walk its pages,
then close the handle and clear `self.doc` — but only on the normal
path; the `except` clause re-raises without closing, so on the error
path `self.doc` still holds the open handle and `self.pages` the pages
appended so far. -/
def read_pdf (fs : FS) (f : AnnotationForm) : AnnotationForm × Except String Unit :=
  match fs f.pdf_path with
  | none => (f, .error "fitz.FileNotFoundError: no such file")
  | some d =>
    match walkPages d.pages 0 f.pages with
    | (ps, .ok _) => ({f with doc := none, pages := ps}, .ok ())
    | (ps, .error e) => ({f with doc := some ⟨d, false⟩, pages := ps}, .error e)

/-- `AnnotationForm.__init__` (lines 65-72): record the metadata and
run extraction. -/
def AnnotationForm.init (fs : FS) (pdf_path name : String) (year : ℤ)
    (version : String) : AnnotationForm × Except String Unit :=
  read_pdf fs ⟨pdf_path, name, year, version, none, []⟩

/-! ## Export (`export_to_json`, lines 158-207) -/

def optIntJson : Option ℤ → Json
  | none => .null
  | some n => .int n

def optStrJson : Option String → Json
  | none => .null
  | some s => .str s

def optBoolJson : Option Bool → Json
  | none => .null
  | some b => .bool b

/-- The `position` object written by export (lines 183-189). -/
def positionToJson (p : Position) : Json :=
  .obj [("x", .int p.x), ("y", .int p.y), ("width", .int p.width),
        ("height", .int p.height), ("unit", .str p.unit)]

/-- The `formatting` object written by export (lines 190-197). -/
def formattingToJson (f : Formatting) : Json :=
  .obj [("font_size", optIntJson f.font_size),
        ("font_family", optStrJson f.font_family),
        ("alignment", optStrJson f.alignment),
        ("max_length", optIntJson f.max_length),
        ("pattern", optStrJson f.pattern),
        ("required", optBoolJson f.required)]

/-- One annotation as written by export (lines 179-202). -/
def annotationToJson (a : Annotation) : Json :=
  .obj [("id", .str a.id), ("type", .str a.type), ("label", optStrJson a.label),
        ("position", positionToJson a.position),
        ("formatting", formattingToJson a.formatting),
        ("data_reference",
          .obj [("path", .str a.data_reference.path),
                ("default_value", optStrJson a.data_reference.default_value)])]

/-- One page as written by export (lines 173-203). -/
def pageToJson (p : Pages) : Json :=
  .obj [("page_number", .int p.page_number),
        ("annotations", .arr (p.annotations.map annotationToJson))]

/-- `export_to_json` (lines 158-207): the `data` tree the method
serialises with `json.dumps` (which is injective on these trees, so
equality of the trees is equality of the produced JSON strings).  A
pure function of the in-memory tree and metadata; the document handle
is never touched. -/
def export_to_json (f : AnnotationForm) : Json :=
  .obj [("pdf_info",
          .obj [("name", .str f.name), ("year", .int f.year),
                ("version", .str f.version), ("path", .str f.pdf_path)]),
        ("pages", .arr (f.pages.map pageToJson))]

/-! ## Widget lookup (lines 209-223) and single-field update (lines 225-315) -/

/-- `__find_widget_by_annotation_id` (lines 209-215): linear scan for
the first widget whose `field_name` equals the id; the scan also
returns the widget's position in the enumeration so the model can
write the mutation back.  Touching a raising widget propagates its
exception. -/
def find_widget_by_annotation_id :
    List (Except String Widget) → String → ℕ → Except String (Option (ℕ × Widget))
  | [], _, _ => .ok none
  | .error e :: _, _, _ => .error e
  | .ok w :: rest, aid, i =>
    if w.field_name = aid then .ok (some (i, w))
    else find_widget_by_annotation_id rest aid (i + 1)

/-- `__find_widget_by_label` (lines 217-223): first widget whose
`field_label` equals the label (Python `None == label` is `False`). -/
def find_widget_by_label :
    List (Except String Widget) → String → ℕ → Except String (Option (ℕ × Widget))
  | [], _, _ => .ok none
  | .error e :: _, _, _ => .error e
  | .ok w :: rest, lbl, i =>
    if w.field_label = some lbl then .ok (some (i, w))
    else find_widget_by_label rest lbl (i + 1)

/-- The `Union[UpdateField, dict]` argument of the update methods. -/
inductive FieldValueArg where
  | typed (u : UpdateField)
  | raw (d : Json)

/-- Lines 239-240: a dict argument is normalised through
`UpdateField.from_dict`; a non-dict is used as is, and anything that is
neither a dict nor an `UpdateField` fails at the first attribute
access. -/
def normalizeFieldValue : FieldValueArg → Except String UpdateField
  | .typed u => .ok u
  | .raw d =>
    match d with
    | .obj _ => UpdateField.from_dict d
    | _ => .error "AttributeError: object has no attribute default_value"

/-- Lines 242-245: `if field_value.default_value:` — assign the value
only when it is truthy (a present empty string is skipped). -/
def applyValue (fv : UpdateField) (w : Widget) : Widget :=
  match fv.default_value with
  | some j => if jsonTruthy j then {w with field_value := pyStr j} else w
  | none => w

/-- Lines 247-251: assign the rectangle
`fitz.Rect(x, y, x + width, y + height)` when a position is present. -/
def applyPosition (fv : UpdateField) (w : Widget) : Widget :=
  match fv.position with
  | some p =>
    {w with rect := ⟨(p.x : ℚ), (p.y : ℚ), ((p.x + p.width : ℤ) : ℚ),
                     ((p.y + p.height : ℤ) : ℚ)⟩}
  | none => w

/-- Lines 253-260: when a formatting object is present, apply font size
and font family, each only when itself truthy. -/
def applyFormatting (fv : UpdateField) (w : Widget) : Widget :=
  match fv.formatting with
  | some fmt =>
    let w1 := match fmt.font_size with
      | some n => if n ≠ 0 then {w with text_fontsize := n} else w
      | none => w
    match fmt.font_family with
    | some s => if s ≠ "" then {w1 with text_font := s} else w1
    | none => w1
  | none => w

/-- Lines 262-264: assign the label when it is truthy. -/
def applyLabel (fv : UpdateField) (w : Widget) : Widget :=
  match fv.label with
  | some j => if jsonTruthy j then {w with field_label := some (pyStr j)} else w
  | none => w

/-- Lines 242-264 (identical in both update methods): apply the
non-absent, truthy sub-fields of the payload to the widget, in the
order value, position, formatting (font size then font family), label. -/
def applyUpdateToWidget (fv : UpdateField) (w : Widget) : Widget :=
  applyLabel fv (applyFormatting fv (applyPosition fv (applyValue fv w)))

/-- Replace widget `wi` of page `pi` with `w` (the in-place mutation of
the live widget object, seen through the document). -/
def setWidget (d : EngineDoc) (pi wi : ℕ) (w : Widget) : EngineDoc :=
  match d.pages[pi]? with
  | none => d
  | some p =>
    ⟨d.pages.set pi ⟨p.widgets.map (fun items => items.set wi (.ok w))⟩⟩

/-- Lines 227-231 (and 273-277): `if not self.doc: self.doc =
fitz.open(self.pdf_path)`.  A missing handle and a closed handle are
both falsy, so both are replaced by a fresh open handle; an open handle
is reused. -/
def ensureOpen (fs : FS) (f : AnnotationForm) : AnnotationForm × Except String DocHandle :=
  let openNew : AnnotationForm × Except String DocHandle :=
    match fs f.pdf_path with
    | some d => ({f with doc := some ⟨d, false⟩}, .ok ⟨d, false⟩)
    | none => (f, .error "fitz.FileNotFoundError: no such file")
  match f.doc with
  | some h => if h.isClosed then openNew else (f, .ok h)
  | none => openNew

/-- Lines 232-266 of `update_field_by_anotation_id_and_page_number`:
the part of the call after the handle is ensured open; `f1` is the
state after the ensure-open step and `d` the open document's data. -/
def updateBodyById (f1 : AnnotationForm) (d : EngineDoc)
    (annotation_id : String) (page_number : ℤ) (field_value : FieldValueArg) :
    AnnotationForm × Except String Bool :=
  match pyIndex d.pages (page_number - 1) with
  | none => (f1, .error "IndexError: page not in document")
  | some (pi, page) =>
    match page.widgets with
    | .error e => (f1, .error e)
    | .ok items =>
      match find_widget_by_annotation_id items annotation_id 0 with
      | .error e => (f1, .error e)
      | .ok none =>
        (f1, .error ("Widget with annotation id " ++ annotation_id ++ " not found"))
      | .ok (some (wi, w)) =>
        match normalizeFieldValue field_value with
        | .error e => (f1, .error e)
        | .ok u =>
          ({f1 with doc := some ⟨setWidget d pi wi (applyUpdateToWidget u w), false⟩},
           .ok true)

/-- `update_field_by_anotation_id_and_page_number` (lines 225-269).
The pair also returns the post-call state of `self`; an exception is
logged and re-raised, with the side effects performed so far (such as
the reopened handle) kept. -/
def update_field_by_anotation_id_and_page_number (fs : FS) (f : AnnotationForm)
    (annotation_id : String) (page_number : ℤ) (field_value : FieldValueArg) :
    AnnotationForm × Except String Bool :=
  match ensureOpen fs f with
  | (f1, .error e) => (f1, .error e)
  | (f1, .ok h) => updateBodyById f1 h.data annotation_id page_number field_value

/-- Lines 278-312 of `update_field_by_label_and_page_number`: identical
to `updateBodyById` except the widget is located by label. -/
def updateBodyByLabel (f1 : AnnotationForm) (d : EngineDoc)
    (label : String) (page_number : ℤ) (field_value : FieldValueArg) :
    AnnotationForm × Except String Bool :=
  match pyIndex d.pages (page_number - 1) with
  | none => (f1, .error "IndexError: page not in document")
  | some (pi, page) =>
    match page.widgets with
    | .error e => (f1, .error e)
    | .ok items =>
      match find_widget_by_label items label 0 with
      | .error e => (f1, .error e)
      | .ok none =>
        (f1, .error ("Widget with label " ++ label ++ " not found"))
      | .ok (some (wi, w)) =>
        match normalizeFieldValue field_value with
        | .error e => (f1, .error e)
        | .ok u =>
          ({f1 with doc := some ⟨setWidget d pi wi (applyUpdateToWidget u w), false⟩},
           .ok true)

/-- `update_field_by_label_and_page_number` (lines 271-315). -/
def update_field_by_label_and_page_number (fs : FS) (f : AnnotationForm)
    (label : String) (page_number : ℤ) (field_value : FieldValueArg) :
    AnnotationForm × Except String Bool :=
  match ensureOpen fs f with
  | (f1, .error e) => (f1, .error e)
  | (f1, .ok h) => updateBodyByLabel f1 h.data label page_number field_value

/-! ## Persistence (`save_pdf`, lines 350-354) -/

/-- `save_pdf`: guarded by `if self.doc is not None` — an identity
check, not a truthiness check.  The third component records the write
performed (`none` = nothing written to disk).  `self.doc` is closed but
never reset to `None`, so a later call still enters the branch and
`doc.save` on the closed document raises. -/
def save_pdf (f : AnnotationForm) (output_path : Option String) :
    AnnotationForm × Except String Unit × Option (String × EngineDoc) :=
  match f.doc with
  | none => (f, .ok (), none)
  | some h =>
    if h.isClosed then (f, .error "ValueError: document closed", none)
    else
      let path := match output_path with
        | some s => if s = "" then "output.pdf" else s
        | none => "output.pdf"
      ({f with doc := some ⟨h.data, true⟩}, .ok (), some (path, h.data))

/-! ## Bulk update (`load_updated_annotaion_json`, lines 317-348) -/

/-- The innermost loop body (lines 330-342): for one imported
annotation dict, if its `id` equals the live annotation's id, build the
`update_body` dict (dereferencing `data_reference`, which raises when
it is absent or not a dict) and apply it through the single-field
update, using the *imported* page's `page_number`. -/
def stepNewAnn (fs : FS) (ann : Annotation) (ip : Json) (f : AnnotationForm)
    (na : Json) : AnnotationForm × Except String Unit :=
  match jGetCall na "id" with
  | .error e => (f, .error e)
  | .ok idv =>
    if pyEqStr ann.id idv then
      match jGetCall na "data_reference" with
      | .error e => (f, .error e)
      | .ok none => (f, .error "AttributeError: NoneType has no attribute get")
      | .ok (some dr) =>
        match jGetCall dr "default_value" with
        | .error e => (f, .error e)
        | .ok dv =>
          let body : Json := .obj
            [("default_value", dv.getD Json.null),
             ("label", (pyGet na "label").getD Json.null),
             ("position", (pyGet na "position").getD Json.null),
             ("formatting", (pyGet na "formatting").getD Json.null)]
          match pyGet ip "page_number" with
          | some (.int n) =>
            let r := update_field_by_anotation_id_and_page_number fs f ann.id n (.raw body)
            (r.1, r.2.map fun _ => ())
          | _ => (f, .error "TypeError: unsupported operand type for page_number")
    else (f, .ok ())

/-- Short-circuiting left fold threading the synchronizer state: the
first exception aborts the remaining iterations (no
continue-on-error). -/
def foldUpd {α : Type} (step : AnnotationForm → α → AnnotationForm × Except String Unit) :
    AnnotationForm → List α → AnnotationForm × Except String Unit
  | f, [] => (f, .ok ())
  | f, x :: xs =>
    match step f x with
    | (f1, .ok _) => foldUpd step f1 xs
    | (f1, .error e) => (f1, .error e)

/-- Loop over one imported page (line 329-330): iterate its
`annotations` value, which must be a list. -/
def stepImportedPage (fs : FS) (ann : Annotation) (f : AnnotationForm)
    (ip : Json) : AnnotationForm × Except String Unit :=
  match jGetCall ip "annotations" with
  | .error e => (f, .error e)
  | .ok (some (.arr nas)) => foldUpd (stepNewAnn fs ann ip) f nas
  | .ok _ => (f, .error "TypeError: annotations is not iterable")

/-- Loop over all imported pages for one live annotation (line 329). -/
def stepLiveAnn (fs : FS) (ips : List Json) (f : AnnotationForm)
    (ann : Annotation) : AnnotationForm × Except String Unit :=
  foldUpd (stepImportedPage fs ann) f ips

/-- Loop over one live page's annotations (line 328). -/
def stepLivePage (fs : FS) (ips : List Json) (f : AnnotationForm)
    (lp : Pages) : AnnotationForm × Except String Unit :=
  foldUpd (stepLiveAnn fs ips) f lp.annotations

/-- `load_updated_annotaion_json` (lines 317-348): read the JSON file,
reject it when its `pages` value is falsy (missing, `null` or an empty
list), then for every live annotation scan every imported page's
annotations for an id match and apply each match.  `jfs` maps a path to
the parsed JSON (`none` = the file cannot be read). -/
def load_updated_annotaion_json (fs : FS) (jfs : String → Option Json)
    (f : AnnotationForm) (json_path : String) : AnnotationForm × Except String Bool :=
  match jfs json_path with
  | none => (f, .error "FileNotFoundError: cannot read json file")
  | some j =>
    match jGetCall j "pages" with
    | .error e => (f, .error e)
    | .ok pagesOpt =>
      if optTruthy pagesOpt then
        match pagesOpt with
        | some (.arr ips) =>
          match foldUpd (stepLivePage fs ips) f f.pages with
          | (f1, .ok _) => (f1, .ok true)
          | (f1, .error e) => (f1, .error e)
        | _ => (f, .error "TypeError: pages is not iterable")
      else (f, .error "Invalid updated annotation json")

/-! ## Concrete fixtures used by witnesses and counterexamples -/

/-- A healthy text widget with integer coordinates, font size 12 and
font Helv. -/
def exWidget : Widget := ⟨"f1", "Text", "v", some "L", ⟨1, 2, 3, 4⟩, 12, "Helv"⟩

/-- A one-page document holding `exWidget`. -/
def exDoc : EngineDoc := ⟨[⟨.ok [.ok exWidget]⟩]⟩

/-- A file system with `exDoc` at `"a.pdf"`. -/
def exFS : FS := fun p => if p = "a.pdf" then some exDoc else none

/-- The synchronizer constructed on `"a.pdf"` (extraction succeeds and
closes the handle). -/
def exForm : AnnotationForm := (AnnotationForm.init exFS "a.pdf" "n" 2024 "1").1

/-- The state after one (no-op payload) update call: the handle has
been lazily reopened and is open. -/
def exFormOpen : AnnotationForm :=
  (update_field_by_anotation_id_and_page_number exFS exForm "f1" 1 (.typed {})).1

/-- The state after saving `exFormOpen`: the handle is closed but
`self.doc` still references it. -/
def exSaved : AnnotationForm := (save_pdf exFormOpen none).1

/-- A document whose second page raises during widget enumeration. -/
def exDocBroken : EngineDoc := ⟨[⟨.ok [.ok exWidget]⟩, ⟨.error "boom"⟩]⟩

/-- A file system with the broken document at `"b.pdf"`. -/
def exFSBroken : FS := fun p => if p = "b.pdf" then some exDocBroken else none

/-! ## Document-handle lifecycle lemmas -/

/-- When `self.doc` is falsy (absent or closed) and the source file
opens, the lazy-reopen step installs a fresh open handle on the
original path. -/
theorem ensureOpen_not_truthy (fs : FS) (f : AnnotationForm) (d : EngineDoc)
    (h1 : docTruthy f.doc = false) (h2 : fs f.pdf_path = some d) :
    ensureOpen fs f = ({f with doc := some ⟨d, false⟩}, .ok ⟨d, false⟩) := by
  unfold ensureOpen
  cases hd : f.doc with
  | none => simp [hd, h2]
  | some hh =>
    have hc : hh.isClosed = true := by
      simp [docTruthy, hd] at h1; exact h1
    simp [hd, hc, h2]

/-- An open handle is reused as is. -/
theorem ensureOpen_open (fs : FS) (f : AnnotationForm) (hh : DocHandle)
    (h : f.doc = some hh) (hc : hh.isClosed = false) :
    ensureOpen fs f = (f, .ok hh) := by
  unfold ensureOpen
  simp [h, hc]

/-- The post-ensure-open body either keeps the state or installs an
open handle holding the mutated document. -/
theorem updateBodyById_state (f1 : AnnotationForm) (d : EngineDoc)
    (aid : String) (pn : ℤ) (fv : FieldValueArg) :
    (updateBodyById f1 d aid pn fv).1 = f1 ∨
    ∃ d' : EngineDoc,
      (updateBodyById f1 d aid pn fv).1 = {f1 with doc := some ⟨d', false⟩} := by
  unfold updateBodyById
  split
  · exact .inl rfl
  · split
    · exact .inl rfl
    · split
      · exact .inl rfl
      · exact .inl rfl
      · split
        · exact .inl rfl
        · exact .inr ⟨_, rfl⟩

/-- After an update call that began with an open handle, the handle is
still present and open, whatever the outcome. -/
theorem update_doc_stays_open (fs : FS) (f : AnnotationForm) (d : EngineDoc)
    (aid : String) (pn : ℤ) (fv : FieldValueArg)
    (h : f.doc = some ⟨d, false⟩) :
    ∃ hh : DocHandle,
      (update_field_by_anotation_id_and_page_number fs f aid pn fv).1.doc = some hh ∧
      hh.isClosed = false := by
  unfold update_field_by_anotation_id_and_page_number
  rw [ensureOpen_open fs f ⟨d, false⟩ h rfl]
  rcases updateBodyById_state f (DocHandle.mk d false).data aid pn fv with h1 | ⟨d', h1⟩
  · exact ⟨⟨d, false⟩, by rw [h1, h], rfl⟩
  · exact ⟨⟨d', false⟩, by rw [h1], rfl⟩

/-- A falsy handle is replaced by a freshly opened one before anything
else happens: the call behaves exactly as if the document from
`pdf_path` were already open. -/
theorem update_reopen_eq (fs : FS) (f : AnnotationForm) (d : EngineDoc)
    (aid : String) (pn : ℤ) (fv : FieldValueArg)
    (h1 : docTruthy f.doc = false) (h2 : fs f.pdf_path = some d) :
    update_field_by_anotation_id_and_page_number fs f aid pn fv =
      update_field_by_anotation_id_and_page_number fs
        {f with doc := some ⟨d, false⟩} aid pn fv := by
  unfold update_field_by_anotation_id_and_page_number
  rw [ensureOpen_not_truthy fs f d h1 h2,
      ensureOpen_open fs {f with doc := some ⟨d, false⟩} ⟨d, false⟩ rfl rfl]

/-- **C1**: if the document handle is not open when an update call
begins (absent, or closed by an explicit save), the call reopens the
document from the original `pdf_path` before locating and modifying the
widget — it behaves exactly as if the document from `pdf_path` were
already open — and it leaves the session with an open handle. -/
theorem c1_update_reopens_lazily (fs : FS) (f : AnnotationForm) (d : EngineDoc)
    (aid : String) (pn : ℤ) (fv : FieldValueArg)
    (h1 : docTruthy f.doc = false) (h2 : fs f.pdf_path = some d) :
    update_field_by_anotation_id_and_page_number fs f aid pn fv =
      update_field_by_anotation_id_and_page_number fs
        {f with doc := some ⟨d, false⟩} aid pn fv ∧
    ∃ hh : DocHandle,
      (update_field_by_anotation_id_and_page_number fs f aid pn fv).1.doc = some hh ∧
      hh.isClosed = false := by
  refine ⟨update_reopen_eq fs f d aid pn fv h1 h2, ?_⟩
  rw [update_reopen_eq fs f d aid pn fv h1 h2]
  exact update_doc_stays_open fs _ d aid pn fv rfl

/-- Witness for C1 at a concrete session: `exForm` has no open handle
(extraction closed it), and the update call behaves as if `exDoc` had
been freshly opened and ends with an open handle. -/
theorem c1_witness :
    update_field_by_anotation_id_and_page_number exFS exForm "f1" 1 (.typed {}) =
      update_field_by_anotation_id_and_page_number exFS
        {exForm with doc := some ⟨exDoc, false⟩} "f1" 1 (.typed {}) ∧
    ∃ hh : DocHandle,
      (update_field_by_anotation_id_and_page_number exFS exForm "f1" 1
          (.typed {})).1.doc = some hh ∧
      hh.isClosed = false :=
  c1_update_reopens_lazily exFS exForm exDoc "f1" 1 (.typed {}) (by decide) (by decide)

/-- **C2** counterexample: after an explicit save has closed the
document (`exSaved` = construct, update once, save once), no handle is
open at save time — `self.doc` holds a closed document, not `None` —
yet a second `save_pdf` call is not a no-op: it calls `save` on the
closed document and raises instead of returning silently. -/
theorem c2_counterexample :
    docTruthy exSaved.doc = false ∧
    exSaved.doc.isSome = true ∧
    (save_pdf exSaved none).2.1 = .error "ValueError: document closed" := by
  refine ⟨by decide, by decide, by rfl⟩

/-- **C2** amended: `save_pdf` is a silent no-op — no write, no
exception, state unchanged — exactly when `self.doc` is `None` (as
right after construction, extraction having closed and cleared the
handle); after a previous save, `self.doc` still references the closed
document, so a further save raises instead. -/
theorem c2_save_noop_when_doc_is_none (f : AnnotationForm) (p : Option String)
    (h : f.doc = none) :
    save_pdf f p = (f, .ok (), none) := by
  unfold save_pdf
  rw [h]

/-- Witness for the amended C2: saving right after construction (the
extraction of `exForm` closed and cleared the handle) is a no-op. -/
theorem c2_save_noop_witness :
    save_pdf exForm none = (exForm, .ok (), none) :=
  c2_save_noop_when_doc_is_none exForm none (by decide)

/-- **C3** counterexample: extracting `exDocBroken` (its second page's
widget enumeration raises `"boom"`) propagates the error to the caller,
but the document handle opened for extraction has *not* been closed:
the session still holds it open when construction fails. -/
theorem c3_counterexample :
    (AnnotationForm.init exFSBroken "b.pdf" "n" 2024 "1").2 = .error "boom" ∧
    (AnnotationForm.init exFSBroken "b.pdf" "n" 2024 "1").1.doc =
      some ⟨exDocBroken, false⟩ ∧
    docTruthy (AnnotationForm.init exFSBroken "b.pdf" "n" 2024 "1").1.doc = true := by
  refine ⟨by rfl, by rfl, by decide⟩

/-- **C3** amended: extraction closes and clears the handle when the
page/widget walk completes normally, and acquires no handle when the
document fails to open; but when the walk itself raises, the handle is
left open in the session and the error propagates. -/
theorem read_pdf_fail (fs : FS) (f : AnnotationForm)
    (h : fs f.pdf_path = none) :
    read_pdf fs f = (f, .error "fitz.FileNotFoundError: no such file") := by
  unfold read_pdf
  rw [h]

theorem read_pdf_opened (fs : FS) (f : AnnotationForm) (d : EngineDoc)
    (h : fs f.pdf_path = some d) :
    read_pdf fs f =
      (match walkPages d.pages 0 f.pages with
       | (ps, .ok _) => ({f with doc := none, pages := ps}, .ok ())
       | (ps, .error e) =>
         ({f with doc := some ⟨d, false⟩, pages := ps}, .error e)) := by
  unfold read_pdf
  rw [h]

theorem c3_close_on_success (fs : FS) (f : AnnotationForm) :
    ((read_pdf fs f).2 = .ok () → (read_pdf fs f).1.doc = none) ∧
    (fs f.pdf_path = none → (read_pdf fs f).1 = f) := by
  constructor
  · intro h
    rcases hfs : fs f.pdf_path with _ | d
    · rw [read_pdf_fail fs f hfs] at h
      exact Except.noConfusion h
    · rw [read_pdf_opened fs f d hfs] at h ⊢
      rcases hw : walkPages d.pages 0 f.pages with ⟨ps, r⟩
      rw [hw] at h
      cases r with
      | ok u => rfl
      | error e => exact Except.noConfusion h
  · intro h
    rw [read_pdf_fail fs f h]

/-- Witness for the amended C3: the successful extraction of `exDoc`
ends with no handle held. -/
theorem c3_close_on_success_witness :
    (read_pdf exFS ⟨"a.pdf", "n", 2024, "1", none, []⟩).1.doc = none :=
  (c3_close_on_success exFS ⟨"a.pdf", "n", 2024, "1", none, []⟩).1 (by rfl)

/-! ## Behaviour of the sub-field application steps -/

/-- A nonempty string is not `isEmpty`. -/
theorem isEmpty_false_of_ne {l : String} (hne : l ≠ "") : l.isEmpty = false :=
  Bool.eq_false_iff.mpr (fun ht => hne ((String.isEmpty_iff l).mp ht))

/-- Step 3 leaves the widget untouched when `default_value` is falsy
(absent, `None`, or the empty string). -/
theorem applyValue_of_falsy (fv : UpdateField) (w : Widget)
    (h : optTruthy fv.default_value = false) : applyValue fv w = w := by
  unfold applyValue
  rcases hd : fv.default_value with _ | j
  · rfl
  · rw [hd] at h
    simp only [optTruthy] at h
    simp [h]

/-- Step 3 only ever writes `field_value`. -/
theorem applyValue_keeps (fv : UpdateField) (w : Widget) :
    (applyValue fv w).field_name = w.field_name ∧
    (applyValue fv w).field_label = w.field_label ∧
    (applyValue fv w).rect = w.rect ∧
    (applyValue fv w).text_fontsize = w.text_fontsize ∧
    (applyValue fv w).text_font = w.text_font := by
  unfold applyValue
  rcases fv.default_value with _ | j
  · simp
  · by_cases h : jsonTruthy j <;> simp [h]

/-- Step 4 only ever writes `rect`. -/
theorem applyPosition_keeps (fv : UpdateField) (w : Widget) :
    (applyPosition fv w).field_name = w.field_name ∧
    (applyPosition fv w).field_value = w.field_value ∧
    (applyPosition fv w).field_label = w.field_label ∧
    (applyPosition fv w).text_fontsize = w.text_fontsize ∧
    (applyPosition fv w).text_font = w.text_font := by
  unfold applyPosition
  rcases fv.position with _ | p <;> simp

/-- Step 4 writes the rectangle `(x, y, x + width, y + height)` when a
position is supplied. -/
theorem applyPosition_of_some (fv : UpdateField) (w : Widget) (p : Position)
    (h : fv.position = some p) :
    (applyPosition fv w).rect =
      ⟨(p.x : ℚ), (p.y : ℚ), ((p.x + p.width : ℤ) : ℚ), ((p.y + p.height : ℤ) : ℚ)⟩ := by
  unfold applyPosition
  simp only [h]

/-- Step 4 keeps the widget when no position is supplied. -/
theorem applyPosition_of_none (fv : UpdateField) (w : Widget)
    (h : fv.position = none) : applyPosition fv w = w := by
  unfold applyPosition
  simp only [h]

/-- Step 5 only ever writes `text_fontsize` and `text_font`. -/
theorem applyFormatting_keeps (fv : UpdateField) (w : Widget) :
    (applyFormatting fv w).field_name = w.field_name ∧
    (applyFormatting fv w).field_value = w.field_value ∧
    (applyFormatting fv w).field_label = w.field_label ∧
    (applyFormatting fv w).rect = w.rect := by
  unfold applyFormatting
  rcases hf : fv.formatting with _ | fm
  · simp
  · rcases hfs : fm.font_size with _ | n <;>
      rcases hff : fm.font_family with _ | s <;>
        simp only [hfs, hff] <;>
        first
          | (split_ifs <;> simp)
          | simp

/-- Step 5 sets the font size when the supplied formatting carries a
truthy one. -/
theorem applyFormatting_fontsize (fv : UpdateField) (w : Widget)
    (fm : Formatting) (n : ℤ)
    (hf : fv.formatting = some fm) (hn : fm.font_size = some n) (h0 : n ≠ 0) :
    (applyFormatting fv w).text_fontsize = n := by
  unfold applyFormatting
  simp only [hf, hn, h0, if_true]
  rcases hff : fm.font_family with _ | s
  · simp [h0]
  · simp only [hff]
    split_ifs <;> simp [h0]

/-- Step 5 with the fixed extraction defaults (font size 8, family
Arial) forces exactly those two attributes. -/
theorem applyFormatting_default (fv : UpdateField) (w : Widget) (fm : Formatting)
    (hf : fv.formatting = some fm) (h8 : fm.font_size = some 8)
    (ha : fm.font_family = some "Arial") :
    applyFormatting fv w = {w with text_fontsize := 8, text_font := "Arial"} := by
  unfold applyFormatting
  simp only [hf, h8, ha]
  have h1 : (8 : ℤ) ≠ 0 := by norm_num
  have h2 : "Arial" ≠ "" := by decide
  simp [h1, h2]

/-- Step 6 only ever writes `field_label`. -/
theorem applyLabel_keeps (fv : UpdateField) (w : Widget) :
    (applyLabel fv w).field_name = w.field_name ∧
    (applyLabel fv w).field_value = w.field_value ∧
    (applyLabel fv w).rect = w.rect ∧
    (applyLabel fv w).text_fontsize = w.text_fontsize ∧
    (applyLabel fv w).text_font = w.text_font := by
  unfold applyLabel
  rcases fv.label with _ | j
  · simp
  · by_cases h : jsonTruthy j <;> simp [h]

/-- Step 6 assigns a truthy string label. -/
theorem applyLabel_of_str (fv : UpdateField) (w : Widget) (l : String)
    (h : fv.label = some (.str l)) (hne : l ≠ "") :
    (applyLabel fv w).field_label = some l := by
  unfold applyLabel
  simp only [h, jsonTruthy, pyStr, isEmpty_false_of_ne hne]
  simp

/-- Step 6 leaves the widget untouched when the label is falsy. -/
theorem applyLabel_of_falsy (fv : UpdateField) (w : Widget)
    (h : optTruthy fv.label = false) : applyLabel fv w = w := by
  unfold applyLabel
  rcases hd : fv.label with _ | j
  · rfl
  · rw [hd] at h
    simp only [optTruthy] at h
    simp [h]

/-- The update body on a successfully located widget: replace it with
the sub-field application and report success. -/
theorem updateBodyById_found (f1 : AnnotationForm) (d : EngineDoc)
    (aid : String) (pn : ℤ) (fv : FieldValueArg) (pi : ℕ) (page : EnginePage)
    (items : List (Except String Widget)) (wi : ℕ) (w : Widget) (u : UpdateField)
    (hpage : pyIndex d.pages (pn - 1) = some (pi, page))
    (hw : page.widgets = .ok items)
    (hfind : find_widget_by_annotation_id items aid 0 = .ok (some (wi, w)))
    (hu : normalizeFieldValue fv = .ok u) :
    updateBodyById f1 d aid pn fv =
      ({f1 with doc := some ⟨setWidget d pi wi (applyUpdateToWidget u w), false⟩},
       .ok true) := by
  unfold updateBodyById
  simp only [hpage, hw, hfind, hu]

/-- The full update call when the handle is already open and the widget
is found. -/
theorem update_field_by_id_found (fs : FS) (f : AnnotationForm) (d : EngineDoc)
    (aid : String) (pn : ℤ) (fv : FieldValueArg) (pi : ℕ) (page : EnginePage)
    (items : List (Except String Widget)) (wi : ℕ) (w : Widget) (u : UpdateField)
    (hdoc : f.doc = some (DocHandle.mk d false))
    (hpage : pyIndex d.pages (pn - 1) = some (pi, page))
    (hw : page.widgets = .ok items)
    (hfind : find_widget_by_annotation_id items aid 0 = .ok (some (wi, w)))
    (hu : normalizeFieldValue fv = .ok u) :
    update_field_by_anotation_id_and_page_number fs f aid pn fv =
      ({f with doc := some ⟨setWidget d pi wi (applyUpdateToWidget u w), false⟩},
       .ok true) := by
  unfold update_field_by_anotation_id_and_page_number
  rw [ensureOpen_open fs f (DocHandle.mk d false) hdoc rfl]
  exact updateBodyById_found f d aid pn fv pi page items wi w u hpage hw hfind hu

/-- **C7**: an update whose payload carries `default_value = ""` still
succeeds and replaces the widget with the sub-field application — whose
`field_value` is the widget's existing value (the empty string is
treated as absent and the value step skipped), while the other supplied
sub-fields (label, position, font size) are still applied. -/
theorem c7_empty_default_value_skipped (fs : FS) (f : AnnotationForm)
    (d : EngineDoc) (aid : String) (pn : ℤ) (pi : ℕ) (page : EnginePage)
    (items : List (Except String Widget)) (wi : ℕ) (w : Widget) (u : UpdateField)
    (hdoc : f.doc = some (DocHandle.mk d false))
    (hpage : pyIndex d.pages (pn - 1) = some (pi, page))
    (hw : page.widgets = .ok items)
    (hfind : find_widget_by_annotation_id items aid 0 = .ok (some (wi, w)))
    (hdv : u.default_value = some (.str "")) :
    update_field_by_anotation_id_and_page_number fs f aid pn (.typed u) =
      ({f with doc := some ⟨setWidget d pi wi (applyUpdateToWidget u w), false⟩},
       .ok true) ∧
    (applyUpdateToWidget u w).field_value = w.field_value ∧
    (∀ l : String, u.label = some (.str l) → l ≠ "" →
        (applyUpdateToWidget u w).field_label = some l) ∧
    (∀ p : Position, u.position = some p →
        (applyUpdateToWidget u w).rect =
          ⟨(p.x : ℚ), (p.y : ℚ), ((p.x + p.width : ℤ) : ℚ),
           ((p.y + p.height : ℤ) : ℚ)⟩) ∧
    (∀ fm : Formatting, ∀ n : ℤ, u.formatting = some fm → fm.font_size = some n →
        n ≠ 0 → (applyUpdateToWidget u w).text_fontsize = n) := by
  have hval : applyValue u w = w :=
    applyValue_of_falsy u w (by simp [optTruthy, hdv, jsonTruthy]; decide)
  refine ⟨update_field_by_id_found fs f d aid pn (.typed u) pi page items wi w u
      hdoc hpage hw hfind rfl, ?_, ?_, ?_, ?_⟩
  · unfold applyUpdateToWidget
    rw [hval]
    rw [(applyLabel_keeps u _).2.1, (applyFormatting_keeps u _).2.1,
        (applyPosition_keeps u _).2.1]
  · intro l hl hne
    unfold applyUpdateToWidget
    exact applyLabel_of_str u _ l hl hne
  · intro p hp
    unfold applyUpdateToWidget
    rw [(applyLabel_keeps u _).2.2.1, (applyFormatting_keeps u _).2.2.2,
        applyPosition_of_some u _ p hp]
  · intro fm n hfm hn h0
    unfold applyUpdateToWidget
    rw [(applyLabel_keeps u _).2.2.2.1,
        applyFormatting_fontsize u _ fm n hfm hn h0]

/-- Witness for C7: on the concrete open session, the payload
`{default_value: "", label: "month"}` succeeds, leaves the value `"v"`
untouched and sets the label. -/
theorem c7_witness :
    update_field_by_anotation_id_and_page_number exFS
        {exForm with doc := some (DocHandle.mk exDoc false)} "f1" 1
        (.typed ⟨some (.str ""), some (.str "month"), none, none⟩) =
      ({exForm with doc := some ⟨setWidget exDoc 0 0
          (applyUpdateToWidget ⟨some (.str ""), some (.str "month"), none, none⟩
            exWidget), false⟩}, .ok true) ∧
    (applyUpdateToWidget ⟨some (.str ""), some (.str "month"), none, none⟩
        exWidget).field_value = exWidget.field_value ∧
    (applyUpdateToWidget ⟨some (.str ""), some (.str "month"), none, none⟩
        exWidget).field_label = some "month" := by
  have h := c7_empty_default_value_skipped exFS
    {exForm with doc := some (DocHandle.mk exDoc false)} exDoc "f1" 1 0
    ⟨.ok [.ok exWidget]⟩ [.ok exWidget] 0 exWidget
    ⟨some (.str ""), some (.str "month"), none, none⟩
    rfl (by decide) rfl (by decide) rfl
  exact ⟨h.1, h.2.1, h.2.2.1 "month" rfl (by decide)⟩

/-! ## Frame properties of the update calls -/

/-- The parts of the synchronizer state other than the document
handle: the in-memory tree and the metadata. -/
def sameTreeAndMeta (g f : AnnotationForm) : Prop :=
  g.pages = f.pages ∧ g.pdf_path = f.pdf_path ∧ g.name = f.name ∧
  g.year = f.year ∧ g.version = f.version

theorem sameTreeAndMeta_refl (f : AnnotationForm) : sameTreeAndMeta f f :=
  ⟨rfl, rfl, rfl, rfl, rfl⟩

theorem sameTreeAndMeta_trans {g f e : AnnotationForm}
    (h1 : sameTreeAndMeta g f) (h2 : sameTreeAndMeta f e) : sameTreeAndMeta g e :=
  ⟨h1.1.trans h2.1, h1.2.1.trans h2.2.1, h1.2.2.1.trans h2.2.2.1,
   h1.2.2.2.1.trans h2.2.2.2.1, h1.2.2.2.2.trans h2.2.2.2.2⟩

/-- The export is a function of the tree and metadata only. -/
theorem export_eq_of_sameTreeAndMeta {g f : AnnotationForm}
    (h : sameTreeAndMeta g f) : export_to_json g = export_to_json f := by
  rcases h with ⟨h1, h2, h3, h4, h5⟩
  unfold export_to_json
  rw [h1, h2, h3, h4, h5]

/-- The ensure-open step only touches `self.doc`. -/
theorem ensureOpen_frame (fs : FS) (f : AnnotationForm) :
    sameTreeAndMeta (ensureOpen fs f).1 f := by
  unfold ensureOpen sameTreeAndMeta
  rcases f.doc with _ | hh
  · cases fs f.pdf_path <;> simp
  · by_cases hc : hh.isClosed <;> cases fs f.pdf_path <;> simp [hc]

/-- The label-update body either keeps the state or installs an open
handle holding the mutated document. -/
theorem updateBodyByLabel_state (f1 : AnnotationForm) (d : EngineDoc)
    (lbl : String) (pn : ℤ) (fv : FieldValueArg) :
    (updateBodyByLabel f1 d lbl pn fv).1 = f1 ∨
    ∃ d' : EngineDoc,
      (updateBodyByLabel f1 d lbl pn fv).1 = {f1 with doc := some ⟨d', false⟩} := by
  unfold updateBodyByLabel
  split
  · exact .inl rfl
  · split
    · exact .inl rfl
    · split
      · exact .inl rfl
      · exact .inl rfl
      · split
        · exact .inl rfl
        · exact .inr ⟨_, rfl⟩

/-- One of the two update methods, with its arguments. -/
inductive UpdateCmd where
  | byId (aid : String) (pn : ℤ) (fv : FieldValueArg)
  | byLabel (lbl : String) (pn : ℤ) (fv : FieldValueArg)

/-- The state after one update call (success or failure). -/
def runUpdate (fs : FS) (f : AnnotationForm) : UpdateCmd → AnnotationForm
  | .byId aid pn fv => (update_field_by_anotation_id_and_page_number fs f aid pn fv).1
  | .byLabel l pn fv => (update_field_by_label_and_page_number fs f l pn fv).1

/-- The state after a sequence of update calls. -/
def runUpdates (fs : FS) (f : AnnotationForm) : List UpdateCmd → AnnotationForm
  | [] => f
  | c :: cs => runUpdates fs (runUpdate fs f c) cs

theorem update_by_id_frame (fs : FS) (f : AnnotationForm) (aid : String)
    (pn : ℤ) (fv : FieldValueArg) :
    sameTreeAndMeta (update_field_by_anotation_id_and_page_number fs f aid pn fv).1 f := by
  unfold update_field_by_anotation_id_and_page_number
  rcases he : ensureOpen fs f with ⟨f1, r⟩
  have hf1 : sameTreeAndMeta f1 f := by
    have h := ensureOpen_frame fs f
    rw [he] at h
    exact h
  cases r with
  | error e => exact hf1
  | ok h =>
    rcases updateBodyById_state f1 h.data aid pn fv with h1 | ⟨d', h1⟩
    · rw [h1]; exact hf1
    · rw [h1]
      exact sameTreeAndMeta_trans ⟨rfl, rfl, rfl, rfl, rfl⟩ hf1

theorem update_by_label_frame (fs : FS) (f : AnnotationForm) (lbl : String)
    (pn : ℤ) (fv : FieldValueArg) :
    sameTreeAndMeta (update_field_by_label_and_page_number fs f lbl pn fv).1 f := by
  unfold update_field_by_label_and_page_number
  rcases he : ensureOpen fs f with ⟨f1, r⟩
  have hf1 : sameTreeAndMeta f1 f := by
    have h := ensureOpen_frame fs f
    rw [he] at h
    exact h
  cases r with
  | error e => exact hf1
  | ok h =>
    rcases updateBodyByLabel_state f1 h.data lbl pn fv with h1 | ⟨d', h1⟩
    · rw [h1]; exact hf1
    · rw [h1]
      exact sameTreeAndMeta_trans ⟨rfl, rfl, rfl, rfl, rfl⟩ hf1

theorem runUpdates_frame (fs : FS) (cmds : List UpdateCmd) :
    ∀ f : AnnotationForm, sameTreeAndMeta (runUpdates fs f cmds) f := by
  induction cmds with
  | nil => exact fun f => sameTreeAndMeta_refl f
  | cons c cs ih =>
    intro f
    refine sameTreeAndMeta_trans (ih (runUpdate fs f c)) ?_
    cases c with
    | byId aid pn fv => exact update_by_id_frame fs f aid pn fv
    | byLabel l pn fv => exact update_by_label_frame fs f l pn fv

/-- **C9**: an update call (by id or by label) mutates only the
document handle: the in-memory tree `self.pages` and the metadata
(`pdf_path`, `name`, `year`, `version`) are unchanged, whether the call
succeeds or raises, and `export_to_json` returns the same JSON before
and after any sequence of update calls. -/
theorem c9_updates_touch_only_doc (fs : FS) (f : AnnotationForm) (aid lbl : String)
    (pn : ℤ) (fv : FieldValueArg) (cmds : List UpdateCmd) :
    sameTreeAndMeta (update_field_by_anotation_id_and_page_number fs f aid pn fv).1 f ∧
    sameTreeAndMeta (update_field_by_label_and_page_number fs f lbl pn fv).1 f ∧
    export_to_json (update_field_by_anotation_id_and_page_number fs f aid pn fv).1 =
      export_to_json f ∧
    export_to_json (update_field_by_label_and_page_number fs f lbl pn fv).1 =
      export_to_json f ∧
    export_to_json (runUpdates fs f cmds) = export_to_json f :=
  ⟨update_by_id_frame fs f aid pn fv,
   update_by_label_frame fs f lbl pn fv,
   export_eq_of_sameTreeAndMeta (update_by_id_frame fs f aid pn fv),
   export_eq_of_sameTreeAndMeta (update_by_label_frame fs f lbl pn fv),
   export_eq_of_sameTreeAndMeta (runUpdates_frame fs cmds f)⟩

/-! ## `UpdateField.from_dict` (C10) -/

/-- A formatting sub-dict containing exactly the supplied keys, each
with a well-typed value. -/
def fmtSubDict (fsz : Option ℤ) (ffam al : Option String) (ml : Option ℤ)
    (pat : Option String) (req : Option Bool) : List (String × Json) :=
  (fsz.map fun n => ("font_size", Json.int n)).toList ++
  (ffam.map fun s => ("font_family", Json.str s)).toList ++
  (al.map fun s => ("alignment", Json.str s)).toList ++
  (ml.map fun n => ("max_length", Json.int n)).toList ++
  (pat.map fun s => ("pattern", Json.str s)).toList ++
  (req.map fun b => ("required", Json.bool b)).toList

/-- Any subset of well-typed formatting keys converts to the
`Formatting` with exactly those fields set. -/
theorem formattingOfKwargs_subset (fsz : Option ℤ) (ffam al : Option String)
    (ml : Option ℤ) (pat : Option String) (req : Option Bool) :
    formattingOfKwargs (.obj (fmtSubDict fsz ffam al ml pat req)) =
      .ok ⟨fsz, ffam, al, ml, pat, req⟩ := by
  rcases fsz with _ | a <;> rcases ffam with _ | b <;> rcases al with _ | c <;>
    rcases ml with _ | d <;> rcases pat with _ | e <;> rcases req with _ | g <;>
    rfl

/-- A non-empty position dict that misses one of the five required
keys makes `Position(**pos)` raise. -/
theorem positionOfKwargs_missing (pkvs : List (String × Json))
    (hne : pkvs ≠ [])
    (hmiss : ∃ k ∈ positionKeys, pkvs.lookup k = none) :
    ∃ e, positionOfKwargs (.obj pkvs) = .error e := by
  unfold positionOfKwargs
  by_cases hall : pkvs.all (fun kv => kv.1 ∈ positionKeys)
  · simp only [hall, if_true]
    rcases hmiss with ⟨k, hk, hnone⟩
    simp only [positionKeys] at hk
    fin_cases hk <;> (split <;> first | simp_all | exact ⟨_, rfl⟩)
  · simp [hall]

/-- `from_dict` with falsy `position` and `formatting` sub-values:
every top-level key is optional, the raw `default_value` and `label`
are passed through, and the falsy sub-dicts are treated as absent. -/
theorem from_dict_no_subdicts (kvs : List (String × Json))
    (hp : optTruthy (pyGet (.obj kvs) "position") = false)
    (hf : optTruthy (pyGet (.obj kvs) "formatting") = false) :
    UpdateField.from_dict (.obj kvs) =
      .ok ⟨pyGet (.obj kvs) "default_value", pyGet (.obj kvs) "label",
           none, none⟩ := by
  unfold UpdateField.from_dict
  rcases hpos : pyGet (.obj kvs) "position" with _ | p <;>
    rcases hfmt : pyGet (.obj kvs) "formatting" with _ | q <;>
      simp_all [optTruthy, Except.map, pure, Except.pure, bind, Except.bind]

/-- `from_dict` propagates a `position` conversion failure. -/
theorem from_dict_position_error (kvs : List (String × Json)) (p : Json)
    (e : String)
    (hpos : pyGet (.obj kvs) "position" = some p)
    (ht : jsonTruthy p = true)
    (herr : positionOfKwargs p = .error e) :
    UpdateField.from_dict (.obj kvs) = .error e := by
  unfold UpdateField.from_dict
  simp [hpos, ht, herr, Except.map, pure, Except.pure, bind, Except.bind]

/-- `from_dict` with a well-typed five-key position dict and falsy
formatting. -/
theorem from_dict_position_ok (kvs : List (String × Json)) (p : Json)
    (pv : Position)
    (hpos : pyGet (.obj kvs) "position" = some p)
    (ht : jsonTruthy p = true)
    (hok : positionOfKwargs p = .ok pv)
    (hf : optTruthy (pyGet (.obj kvs) "formatting") = false) :
    UpdateField.from_dict (.obj kvs) =
      .ok ⟨pyGet (.obj kvs) "default_value", pyGet (.obj kvs) "label",
           some pv, none⟩ := by
  unfold UpdateField.from_dict
  rcases hfmt : pyGet (.obj kvs) "formatting" with _ | q <;>
    simp_all [optTruthy, Except.map, pure, Except.pure, bind, Except.bind]

/-- `from_dict` with falsy position and a truthy formatting dict that
converts. -/
theorem from_dict_formatting_ok (kvs : List (String × Json)) (q : Json)
    (fv : Formatting)
    (hp : optTruthy (pyGet (.obj kvs) "position") = false)
    (hfmt : pyGet (.obj kvs) "formatting" = some q)
    (ht : jsonTruthy q = true)
    (hok : formattingOfKwargs q = .ok fv) :
    UpdateField.from_dict (.obj kvs) =
      .ok ⟨pyGet (.obj kvs) "default_value", pyGet (.obj kvs) "label",
           none, some fv⟩ := by
  unfold UpdateField.from_dict
  rcases hpos : pyGet (.obj kvs) "position" with _ | p <;>
    simp_all [optTruthy, Except.map, pure, Except.pure, bind, Except.bind]

/-- **C10**: `UpdateField.from_dict` accepts any subset of top-level
keys; a falsy (missing, `null`, or empty) `position`/`formatting`
mapping is treated as absent; a non-empty `position` mapping missing
any of `x`, `y`, `width`, `height`, `unit` makes the conversion raise
(`Position` has no defaults), while the five well-typed keys convert;
and every `formatting` sub-key is optional (any well-typed subset
converts, missing keys defaulting to `None`). -/
theorem c10_from_dict_key_policy :
    (∀ kvs : List (String × Json),
      optTruthy (pyGet (.obj kvs) "position") = false →
      optTruthy (pyGet (.obj kvs) "formatting") = false →
      UpdateField.from_dict (.obj kvs) =
        .ok ⟨pyGet (.obj kvs) "default_value", pyGet (.obj kvs) "label",
             none, none⟩) ∧
    (∀ (kvs pkvs : List (String × Json)),
      pyGet (.obj kvs) "position" = some (.obj pkvs) →
      pkvs ≠ [] →
      (∃ k ∈ positionKeys, pkvs.lookup k = none) →
      ∃ e, UpdateField.from_dict (.obj kvs) = .error e) ∧
    (∀ (kvs : List (String × Json)) (x y wd ht : ℤ) (u : String),
      pyGet (.obj kvs) "position" =
        some (.obj [("x", .int x), ("y", .int y), ("width", .int wd),
                    ("height", .int ht), ("unit", .str u)]) →
      optTruthy (pyGet (.obj kvs) "formatting") = false →
      UpdateField.from_dict (.obj kvs) =
        .ok ⟨pyGet (.obj kvs) "default_value", pyGet (.obj kvs) "label",
             some ⟨x, y, wd, ht, u⟩, none⟩) ∧
    (∀ (kvs : List (String × Json)) (fsz : Option ℤ) (ffam al : Option String)
        (ml : Option ℤ) (pat : Option String) (req : Option Bool),
      optTruthy (pyGet (.obj kvs) "position") = false →
      pyGet (.obj kvs) "formatting" = some (.obj (fmtSubDict fsz ffam al ml pat req)) →
      fmtSubDict fsz ffam al ml pat req ≠ [] →
      UpdateField.from_dict (.obj kvs) =
        .ok ⟨pyGet (.obj kvs) "default_value", pyGet (.obj kvs) "label",
             none, some ⟨fsz, ffam, al, ml, pat, req⟩⟩) := by
  refine ⟨from_dict_no_subdicts, ?_, ?_, ?_⟩
  · intro kvs pkvs hpos hne hmiss
    obtain ⟨e, he⟩ := positionOfKwargs_missing pkvs hne hmiss
    refine ⟨e, from_dict_position_error kvs (.obj pkvs) e hpos ?_ he⟩
    simp [jsonTruthy, hne]
  · intro kvs x y wd ht u hpos hf
    refine from_dict_position_ok kvs _ ⟨x, y, wd, ht, u⟩ hpos (by simp [jsonTruthy]) ?_ hf
    rfl
  · intro kvs fsz ffam al ml pat req hp hfmt hne
    refine from_dict_formatting_ok kvs _ ⟨fsz, ffam, al, ml, pat, req⟩ hp hfmt ?_
      (formattingOfKwargs_subset fsz ffam al ml pat req)
    simp [jsonTruthy, hne]

/-- Witness for C10 at concrete payloads: the five-key position dict
of `main.py` converts; a one-key position dict raises; a four-key
formatting subset converts with the missing keys defaulted. -/
theorem c10_witness :
    UpdateField.from_dict (.obj
      [("default_value", .str "Feb"), ("label", .str "month"),
       ("position", .obj [("x", .int 226), ("y", .int 62), ("width", .int 76),
                          ("height", .int 12), ("unit", .str "pt")])]) =
      .ok ⟨some (.str "Feb"), some (.str "month"),
           some ⟨226, 62, 76, 12, "pt"⟩, none⟩ ∧
    (∃ e, UpdateField.from_dict (.obj [("position", .obj [("x", .int 1)])]) =
      .error e) ∧
    UpdateField.from_dict (.obj
      [("formatting", .obj (fmtSubDict (some 12) (some "Arial") (some "left")
                             (some 100) none none))]) =
      .ok ⟨none, none, none, some ⟨some 12, some "Arial", some "left",
           some 100, none, none⟩⟩ := by
  refine ⟨?_, ?_, ?_⟩
  · exact c10_from_dict_key_policy.2.2.1 _ 226 62 76 12 "pt" rfl rfl
  · exact c10_from_dict_key_policy.2.1 _ [("x", .int 1)] rfl
      (List.cons_ne_nil _ _) ⟨"y", by simp [positionKeys], rfl⟩
  · exact c10_from_dict_key_policy.2.2.2 _ (some 12) (some "Arial")
      (some "left") (some 100) none none rfl rfl (by simp [fmtSubDict])

/-! ## Extraction shape (C8) -/

/-- The widgets whose attribute access succeeds, in enumeration
order. -/
def okWidgets (items : List (Except String Widget)) : List Widget :=
  items.filterMap fun it => match it with | .ok w => some w | .error _ => none

/-- Specification-side description of the annotations of one page:
each successfully enumerated widget in order, the n-th receiving
fallback counter n. -/
def wsAnns : List Widget → ℕ → List Annotation
  | [], _ => []
  | w :: rest, n => mkAnnot n w :: wsAnns rest (n + 1)

/-- The extraction loop skips raising widgets and processes the
remaining ones in order. -/
theorem extractAnnotsAux_eq (items : List (Except String Widget)) :
    ∀ n, extractAnnotsAux items n = wsAnns (okWidgets items) n := by
  induction items with
  | nil => intro n; rfl
  | cons it rest ih =>
    intro n
    cases it with
    | error e => simpa [extractAnnotsAux, okWidgets] using ih n
    | ok w => simpa [extractAnnotsAux, okWidgets, wsAnns] using ih (n + 1)

/-- Specification-side description of the page walk starting at
zero-based page index `i`: a `Pages` entry (numbered `i + 1`) appears
exactly when the page yields at least one annotation. -/
def specPagesFrom (i : ℕ) : List (List (Except String Widget)) → List Pages
  | [] => []
  | items :: rest =>
    (if (extractAnnots items).isEmpty then []
     else [⟨(i : ℤ) + 1, extractAnnots items⟩]) ++ specPagesFrom (i + 1) rest

/-- Unfolding equation for `specPagesFrom` on a cons. -/
theorem specPagesFrom_cons (i : ℕ) (items : List (Except String Widget))
    (rest : List (List (Except String Widget))) :
    specPagesFrom i (items :: rest) =
      (if (extractAnnots items).isEmpty then []
       else [⟨(i : ℤ) + 1, extractAnnots items⟩]) ++ specPagesFrom (i + 1) rest := rfl

/-- The implementation's page walk computes `specPagesFrom` appended to
its accumulator when every page's enumeration succeeds. -/
theorem walkPages_ok (pageItems : List (List (Except String Widget))) :
    ∀ (i : ℕ) (acc : List Pages),
      walkPages (pageItems.map fun its => ⟨.ok its⟩) i acc =
        (acc ++ specPagesFrom i pageItems, .ok ()) := by
  induction pageItems with
  | nil => intro i acc; simp [walkPages, specPagesFrom]
  | cons items rest ih =>
    intro i acc
    show walkPages (⟨.ok items⟩ :: rest.map fun its => ⟨.ok its⟩) i acc = _
    unfold walkPages
    simp only []
    rw [ih (i + 1), specPagesFrom_cons]
    by_cases he : (extractAnnots items).isEmpty <;>
      simp [he, List.append_assoc]

/-- Every page entry the walk produces from index `i` on is numbered at
least `i + 1`. -/
theorem specPagesFrom_lb (pageItems : List (List (Except String Widget))) :
    ∀ (i : ℕ) (pe : Pages), pe ∈ specPagesFrom i pageItems →
      (i : ℤ) + 1 ≤ pe.page_number := by
  induction pageItems with
  | nil => intro i pe h; simp [specPagesFrom] at h
  | cons items rest ih =>
    intro i pe h
    rw [specPagesFrom_cons] at h
    rcases List.mem_append.mp h with h1 | h2
    · rcases List.mem_ite_nil_left.mp h1 with ⟨_, h1⟩
      rw [List.mem_singleton.mp h1]
    · have h3 := ih (i + 1) pe h2
      push_cast at h3 ⊢
      omega

/-- The page entries appear in strictly ascending page order. -/
theorem specPagesFrom_sorted (pageItems : List (List (Except String Widget))) :
    ∀ i : ℕ, List.Pairwise (fun a b => a.page_number < b.page_number)
      (specPagesFrom i pageItems) := by
  induction pageItems with
  | nil => intro i; simp [specPagesFrom]
  | cons items rest ih =>
    intro i
    rw [specPagesFrom_cons]
    by_cases he : (extractAnnots items).isEmpty
    · simpa [he] using ih (i + 1)
    · simp only [he, Bool.false_eq_true, if_false, List.singleton_append,
        List.pairwise_cons]
      refine ⟨fun pe hpe => ?_, ih (i + 1)⟩
      have h3 := specPagesFrom_lb rest (i + 1) pe hpe
      push_cast at h3 ⊢
      omega

/-- A produced page entry always carries at least one annotation. -/
theorem specPagesFrom_nonempty (pageItems : List (List (Except String Widget))) :
    ∀ (i : ℕ) (pe : Pages), pe ∈ specPagesFrom i pageItems →
      pe.annotations ≠ [] := by
  induction pageItems with
  | nil => intro i pe h; simp [specPagesFrom] at h
  | cons items rest ih =>
    intro i pe h
    rw [specPagesFrom_cons] at h
    rcases List.mem_append.mp h with h1 | h2
    · rcases List.mem_ite_nil_left.mp h1 with ⟨hne, h1⟩
      rw [List.mem_singleton.mp h1]
      simpa [List.isEmpty_iff] using hne
    · exact ih (i + 1) pe h2

/-- **C8**: when every page's widget enumeration succeeds, construction
succeeds, and the extracted tree contains a page entry exactly for the
pages with at least one successfully extracted field, numbered
`index + 1`, in strictly ascending page order, each carrying its page's
successfully extracted widgets in enumeration order
(`wsAnns (okWidgets items) 0`). -/
theorem c8_extraction_order (fs : FS) (path name : String) (year : ℤ)
    (version : String) (pageItems : List (List (Except String Widget)))
    (hfs : fs path = some ⟨pageItems.map fun its => ⟨.ok its⟩⟩) :
    AnnotationForm.init fs path name year version =
      (⟨path, name, year, version, none, specPagesFrom 0 pageItems⟩, .ok ()) ∧
    List.Pairwise (fun a b => a.page_number < b.page_number)
      (specPagesFrom 0 pageItems) ∧
    (∀ pe ∈ specPagesFrom 0 pageItems, pe.annotations ≠ []) ∧
    (∀ items : List (Except String Widget),
      extractAnnots items = wsAnns (okWidgets items) 0) := by
  refine ⟨?_, specPagesFrom_sorted pageItems 0,
    fun pe h => specPagesFrom_nonempty pageItems 0 pe h,
    fun items => extractAnnotsAux_eq items 0⟩
  unfold AnnotationForm.init
  rw [read_pdf_opened _ _ _ hfs]
  simp only [walkPages_ok pageItems 0, List.nil_append]

/-- A second widget for the multi-page extraction witness. -/
def exWidget2 : Widget := ⟨"f2", "CheckBox", "", none, ⟨0, 0, 10, 5⟩, 9, "Helv"⟩

/-- Three pages: one field, an empty page, and a page with a raising
widget followed by a healthy one. -/
def exPageItems : List (List (Except String Widget)) :=
  [[.ok exWidget], [], [.error "bad widget", .ok exWidget2]]

/-- A file system serving the three-page document at `"c.pdf"`. -/
def exFS8 : FS :=
  fun p => if p = "c.pdf" then some ⟨exPageItems.map fun its => ⟨.ok its⟩⟩ else none

/-- Witness for C8: the empty page 2 is omitted, the raising widget of
page 3 is skipped, pages come out as 1 then 3 in ascending order. -/
theorem c8_witness :
    AnnotationForm.init exFS8 "c.pdf" "n" 2024 "1" =
      (⟨"c.pdf", "n", 2024, "1", none, specPagesFrom 0 exPageItems⟩, .ok ()) ∧
    List.Pairwise (fun a b => a.page_number < b.page_number)
      (specPagesFrom 0 exPageItems) ∧
    specPagesFrom 0 exPageItems =
      [⟨1, [mkAnnot 0 exWidget]⟩, ⟨3, [mkAnnot 0 exWidget2]⟩] :=
  ⟨(c8_extraction_order exFS8 "c.pdf" "n" 2024 "1" exPageItems (by rfl)).1,
   (c8_extraction_order exFS8 "c.pdf" "n" 2024 "1" exPageItems (by rfl)).2.1,
   by rfl⟩

/-! ## Bulk import without matches (C6) -/

/-- A fold whose every step is a successful no-op is itself a
successful no-op. -/
theorem foldUpd_id {α : Type} (step : AnnotationForm → α → AnnotationForm × Except String Unit)
    (f : AnnotationForm) (xs : List α)
    (h : ∀ x ∈ xs, step f x = (f, .ok ())) :
    foldUpd step f xs = (f, .ok ()) := by
  induction xs with
  | nil => rfl
  | cons x rest ih =>
    unfold foldUpd
    rw [h x (List.mem_cons_self x rest)]
    exact ih (fun y hy => h y (List.mem_cons_of_mem x hy))

/-- An imported annotation dict whose id does not match is skipped
without touching anything. -/
theorem stepNewAnn_nomatch (fs : FS) (ann : Annotation) (ip : Json)
    (f : AnnotationForm) (na : Json) (nkvs : List (String × Json))
    (hobj : na = .obj nkvs)
    (hno : pyEqStr ann.id (pyGet na "id") = false) :
    stepNewAnn fs ann ip f na = (f, .ok ()) := by
  unfold stepNewAnn
  subst hobj
  simp only [jGetCall, hno, Bool.false_eq_true, if_false]

/-- An imported page none of whose annotations match is a successful
no-op for the scanned live annotation. -/
theorem stepImportedPage_nomatch (fs : FS) (ann : Annotation) (f : AnnotationForm)
    (ip : Json) (pkvs : List (String × Json)) (nas : List Json)
    (hip : ip = .obj pkvs)
    (hannots : pyGet ip "annotations" = some (.arr nas))
    (hall : ∀ na ∈ nas, (∃ nkvs, na = .obj nkvs) ∧
        pyEqStr ann.id (pyGet na "id") = false) :
    stepImportedPage fs ann f ip = (f, .ok ()) := by
  unfold stepImportedPage
  have hcall : jGetCall ip "annotations" = .ok (some (.arr nas)) := by
    rw [hip] at hannots ⊢
    simp [jGetCall, hannots]
  rw [hcall]
  exact foldUpd_id _ f nas (fun na hna => by
    obtain ⟨⟨nkvs, hobj⟩, hno⟩ := hall na hna
    exact stepNewAnn_nomatch fs ann ip f na nkvs hobj hno)

/-- **C6** amended: an import whose `pages` value is a *non-empty*
array with no id match performs zero mutations (the state, including
the document handle, is returned unchanged) and returns success; but
an import whose `pages` value is falsy — the key missing, `null`, *or
present as an empty array* — raises `"Invalid updated annotation
json"` before any mutation. -/
theorem c6_no_match_no_mutation (fs : FS) (jfs : String → Option Json)
    (f : AnnotationForm) (path : String) (j : Json) (kvs : List (String × Json))
    (hj : jfs path = some j) (hobj : j = .obj kvs) :
    (optTruthy (pyGet j "pages") = false →
      load_updated_annotaion_json fs jfs f path =
        (f, .error "Invalid updated annotation json")) ∧
    (∀ ips : List Json, pyGet j "pages" = some (.arr ips) → ips ≠ [] →
      (∀ ip ∈ ips, ∃ pkvs : List (String × Json), ip = .obj pkvs ∧
        ∃ nas : List Json, pyGet ip "annotations" = some (.arr nas) ∧
          ∀ na ∈ nas, (∃ nkvs : List (String × Json), na = .obj nkvs) ∧
            ∀ lp ∈ f.pages, ∀ ann ∈ lp.annotations,
              pyEqStr ann.id (pyGet na "id") = false) →
      load_updated_annotaion_json fs jfs f path = (f, .ok true)) := by
  constructor
  · intro hfalsy
    unfold load_updated_annotaion_json
    have hcall : jGetCall j "pages" = .ok (pyGet j "pages") := by
      rw [hobj]; rfl
    simp only [hj, hcall, hfalsy, Bool.false_eq_true, if_false]
  · intro ips hpages hne hwf
    unfold load_updated_annotaion_json
    have hcall : jGetCall j "pages" = .ok (pyGet j "pages") := by
      rw [hobj]; rfl
    have htrue : optTruthy (some (Json.arr ips)) = true := by
      simp [optTruthy, jsonTruthy, hne]
    simp only [hj, hcall, hpages, htrue, if_true]
    have hfold : foldUpd (stepLivePage fs ips) f f.pages = (f, .ok ()) := by
      refine foldUpd_id _ f f.pages (fun lp hlp => ?_)
      unfold stepLivePage
      refine foldUpd_id _ f lp.annotations (fun ann hann => ?_)
      unfold stepLiveAnn
      refine foldUpd_id _ f ips (fun ip hip => ?_)
      obtain ⟨pkvs, hipobj, nas, hannots, hnas⟩ := hwf ip hip
      refine stepImportedPage_nomatch fs ann f ip pkvs nas hipobj hannots
        (fun na hna => ?_)
      obtain ⟨hobj', hno⟩ := hnas na hna
      exact ⟨hobj', hno lp hlp ann hann⟩
    simp only [hfold]

/-- An import whose `pages` key is present but holds an empty array. -/
def exJEmptyPages : Json := .obj [("pages", .arr [])]

/-- A JSON file system serving the empty-pages import at `"e.json"`. -/
def exJfsEmpty : String → Option Json :=
  fun p => if p = "e.json" then some exJEmptyPages else none

/-- **C6** counterexample: this import *contains* a `pages` key (whose
array is empty, so vacuously none of its annotation ids matches any
live id), yet the bulk update does not return success with zero
mutations — it raises `"Invalid updated annotation json"`, because the
guard tests the truthiness of the `pages` value, not the key's
presence. -/
theorem c6_counterexample :
    pyGet exJEmptyPages "pages" = some (.arr []) ∧
    load_updated_annotaion_json exFS exJfsEmpty exForm "e.json" =
      (exForm, .error "Invalid updated annotation json") :=
  ⟨rfl, by rfl⟩

/-- A non-empty import whose only annotation id `"zzz"` matches no live
annotation of `exForm` (whose only id is `"f1"`). -/
def exJNoMatch : Json :=
  .obj [("pages", .arr [.obj [("page_number", .int 1),
    ("annotations", .arr [.obj [("id", .str "zzz")]])]])]

/-- JSON file system for the no-match import. -/
def exJfsNoMatch : String → Option Json :=
  fun p => if p = "n.json" then some exJNoMatch else none

/-- An import with no `pages` key at all. -/
def exJfsNoPages : String → Option Json :=
  fun p => if p = "m.json" then some (.obj [("foo", .int 1)]) else none

/-- Witness for the amended C6: the no-match import succeeds with the
state unchanged; the import lacking `pages` raises. -/
theorem c6_witness :
    load_updated_annotaion_json exFS exJfsNoMatch exForm "n.json" =
      (exForm, .ok true) ∧
    load_updated_annotaion_json exFS exJfsNoPages exForm "m.json" =
      (exForm, .error "Invalid updated annotation json") := by
  constructor
  · refine (c6_no_match_no_mutation exFS exJfsNoMatch exForm "n.json"
      exJNoMatch _ rfl rfl).2
      [.obj [("page_number", .int 1), ("annotations", .arr [.obj [("id", .str "zzz")]])]]
      rfl (by simp) ?_
    intro ip hip
    fin_cases hip
    refine ⟨_, rfl, [.obj [("id", .str "zzz")]], rfl, ?_⟩
    intro na hna
    fin_cases hna
    refine ⟨⟨_, rfl⟩, ?_⟩
    intro lp hlp ann hann
    have hf : exForm.pages = [⟨1, [mkAnnot 0 exWidget]⟩] := by rfl
    rw [hf] at hlp
    fin_cases hlp
    simp only [List.mem_singleton] at hann
    subst hann
    rfl
  · exact (c6_no_match_no_mutation exFS exJfsNoPages exForm "m.json"
      (.obj [("foo", .int 1)]) _ rfl rfl).1 rfl

/-! ## Structure of the bulk update (C5) -/

/-- The annotation dicts of an imported page. -/
def annsOfIp (ip : Json) : List Json :=
  match pyGet ip "annotations" with
  | some (.arr nas) => nas
  | _ => []

/-- The `page_number` value of an imported page. -/
def pageNumOfIp (ip : Json) : ℤ :=
  match pyGet ip "page_number" with
  | some (.int n) => n
  | _ => 0

/-- The `update_body` dict built from an imported annotation
(lines 332-337). -/
def bodyOfNa (na : Json) : Json :=
  .obj [("default_value",
          (match pyGet na "data_reference" with
           | some dr => (pyGet dr "default_value").getD Json.null
           | none => Json.null)),
        ("label", (pyGet na "label").getD Json.null),
        ("position", (pyGet na "position").getD Json.null),
        ("formatting", (pyGet na "formatting").getD Json.null)]

/-- The invocation one imported annotation contributes for one live
annotation: a single update call — carrying the live id, the *imported*
page's `page_number` and the imported annotation's body — when the ids
are equal, nothing otherwise. -/
def emitNa (ann : Annotation) (ip : Json) (na : Json) : List (String × ℤ × Json) :=
  if pyEqStr ann.id (pyGet na "id")
  then [(ann.id, pageNumOfIp ip, bodyOfNa na)] else []

/-- The invocations one imported page contributes for one live
annotation: every one of its annotation dicts is scanned. -/
def emitIp (ann : Annotation) (ip : Json) : List (String × ℤ × Json) :=
  (annsOfIp ip).flatMap (emitNa ann ip)

/-- The invocations one live annotation receives: every imported page
is scanned (no page alignment is assumed). -/
def emitAnn (ips : List Json) (ann : Annotation) : List (String × ℤ × Json) :=
  ips.flatMap (emitIp ann)

/-- The invocations one live page's annotations receive, in order. -/
def emitLp (ips : List Json) (lp : Pages) : List (String × ℤ × Json) :=
  lp.annotations.flatMap (emitAnn ips)

/-- The update invocations the bulk import performs: for every live
annotation (in tree order), every imported page and every imported
annotation whose `id` equals the live annotation's id — id equality
only — one call carrying the live id, the *imported* page's
`page_number` and the imported annotation's body. -/
def matchedTriples (lps : List Pages) (ips : List Json) : List (String × ℤ × Json) :=
  lps.flatMap (emitLp ips)

/-- Run a list of single-field update invocations in order,
short-circuiting on the first exception. -/
def runMatchedUpdates (fs : FS) (f : AnnotationForm)
    (ts : List (String × ℤ × Json)) : AnnotationForm × Except String Unit :=
  foldUpd (fun g t =>
    let r := update_field_by_anotation_id_and_page_number fs g t.1 t.2.1 (.raw t.2.2)
    (r.1, r.2.map fun _ => ())) f ts

/-- Unfolding equation for `foldUpd` on a cons. -/
theorem foldUpd_cons {α : Type}
    (step : AnnotationForm → α → AnnotationForm × Except String Unit)
    (f : AnnotationForm) (x : α) (xs : List α) :
    foldUpd step f (x :: xs) =
      match step f x with
      | (f1, .ok _) => foldUpd step f1 xs
      | (f1, .error e) => (f1, .error e) := rfl

theorem foldUpd_append {α : Type}
    (step : AnnotationForm → α → AnnotationForm × Except String Unit)
    (f : AnnotationForm) (xs ys : List α) :
    foldUpd step f (xs ++ ys) =
      match foldUpd step f xs with
      | (f1, .ok _) => foldUpd step f1 ys
      | (f1, .error e) => (f1, .error e) := by
  induction xs generalizing f with
  | nil => rfl
  | cons x rest ih =>
    rw [List.cons_append, foldUpd_cons, foldUpd_cons]
    rcases hs : step f x with ⟨f1, r⟩
    cases r with
    | ok u => simpa using ih f1
    | error e => rfl

/-- Splitting a run of matched updates at a concatenation. -/
theorem runMatchedUpdates_append (fs : FS) (f : AnnotationForm)
    (ts1 ts2 : List (String × ℤ × Json)) :
    runMatchedUpdates fs f (ts1 ++ ts2) =
      match runMatchedUpdates fs f ts1 with
      | (f1, .ok _) => runMatchedUpdates fs f1 ts2
      | (f1, .error e) => (f1, .error e) :=
  foldUpd_append _ f ts1 ts2

/-- Fusion: a fold whose every step is itself a run of matched updates
is the run of the concatenation of what the steps emit. -/
theorem foldUpd_emit {α : Type} (fs : FS)
    (step : AnnotationForm → α → AnnotationForm × Except String Unit)
    (emit : α → List (String × ℤ × Json)) (xs : List α)
    (h : ∀ (g : AnnotationForm), ∀ x ∈ xs, step g x = runMatchedUpdates fs g (emit x)) :
    ∀ g : AnnotationForm,
      foldUpd step g xs = runMatchedUpdates fs g (xs.flatMap emit) := by
  induction xs with
  | nil => intro g; rfl
  | cons x rest ih =>
    intro g
    rw [foldUpd_cons, h g x (List.mem_cons_self x rest), List.flatMap_cons,
        runMatchedUpdates_append]
    rcases hr : runMatchedUpdates fs g (emit x) with ⟨g1, r⟩
    cases r with
    | ok u =>
      simpa using ih (fun g' y hy => h g' y (List.mem_cons_of_mem x hy)) g1
    | error e => rfl

/-- One imported annotation step is exactly the run of what it emits. -/
theorem stepNewAnn_runs (fs : FS) (ann : Annotation) (ip : Json)
    (f : AnnotationForm) (na : Json) (nkvs dkvs : List (String × Json)) (n : ℤ)
    (hobj : na = .obj nkvs)
    (hdr : pyGet na "data_reference" = some (.obj dkvs))
    (hpn : pyGet ip "page_number" = some (.int n)) :
    stepNewAnn fs ann ip f na = runMatchedUpdates fs f (emitNa ann ip na) := by
  unfold stepNewAnn emitNa
  have h1 : jGetCall na "id" = .ok (pyGet na "id") := by rw [hobj]; rfl
  simp only [h1]
  by_cases hm : pyEqStr ann.id (pyGet na "id") = true
  · have h2 : jGetCall na "data_reference" = .ok (some (.obj dkvs)) := by
      rw [hobj] at hdr ⊢
      simp [jGetCall, hdr]
    have h3 : jGetCall (Json.obj dkvs) "default_value" =
        .ok (pyGet (Json.obj dkvs) "default_value") := rfl
    have hbody : Json.obj
        [("default_value", ((pyGet (Json.obj dkvs) "default_value").getD Json.null)),
         ("label", (pyGet na "label").getD Json.null),
         ("position", (pyGet na "position").getD Json.null),
         ("formatting", (pyGet na "formatting").getD Json.null)] = bodyOfNa na := by
      unfold bodyOfNa
      rw [hdr]
    have hnum : pageNumOfIp ip = n := by
      unfold pageNumOfIp
      rw [hpn]
    simp only [hm, if_true, h2, h3, hpn, hbody, hnum]
    rcases hu : update_field_by_anotation_id_and_page_number fs f ann.id n
        (.raw (bodyOfNa na)) with ⟨f1, rr⟩
    cases rr <;> simp [runMatchedUpdates, foldUpd, hu, Except.map]
  · simp only [Bool.not_eq_true] at hm
    simp [hm, runMatchedUpdates, foldUpd]

/-- One imported-page step is exactly the run of what the page emits. -/
theorem stepImportedPage_runs (fs : FS) (ann : Annotation) (f : AnnotationForm)
    (ip : Json) (pkvs : List (String × Json)) (nas : List Json)
    (hip : ip = .obj pkvs)
    (hannots : pyGet ip "annotations" = some (.arr nas))
    (hpn : ∃ n, pyGet ip "page_number" = some (.int n))
    (hnas : ∀ na ∈ nas, (∃ nkvs : List (String × Json), na = .obj nkvs) ∧
        (∃ dkvs : List (String × Json), pyGet na "data_reference" = some (.obj dkvs))) :
    stepImportedPage fs ann f ip = runMatchedUpdates fs f (emitIp ann ip) := by
  unfold stepImportedPage emitIp
  have hcall : jGetCall ip "annotations" = .ok (some (.arr nas)) := by
    rw [hip] at hannots ⊢
    simp [jGetCall, hannots]
  have hanns : annsOfIp ip = nas := by
    unfold annsOfIp
    rw [hannots]
  simp only [hcall, hanns]
  obtain ⟨n, hn⟩ := hpn
  exact foldUpd_emit fs _ (emitNa ann ip) nas
    (fun g na hna => by
      obtain ⟨⟨nkvs, h1⟩, ⟨dkvs, h2⟩⟩ := hnas na hna
      exact stepNewAnn_runs fs ann ip g na nkvs dkvs n h1 h2 hn) f

/-- Well-formedness of an imported page (the shape the export schema
guarantees): a dict with an `annotations` array of dicts each carrying
a `data_reference` dict, and an integer `page_number`. -/
def wfImportedPage (ip : Json) : Prop :=
  (∃ pkvs : List (String × Json), ip = .obj pkvs) ∧
  (∃ nas : List Json, pyGet ip "annotations" = some (.arr nas) ∧
    ∀ na ∈ nas, (∃ nkvs : List (String × Json), na = .obj nkvs) ∧
      (∃ dkvs : List (String × Json), pyGet na "data_reference" = some (.obj dkvs))) ∧
  (∃ n : ℤ, pyGet ip "page_number" = some (.int n))

/-- One live-annotation step scans all imported pages in order. -/
theorem stepLiveAnn_runs (fs : FS) (ips : List Json) (f : AnnotationForm)
    (ann : Annotation) (hwf : ∀ ip ∈ ips, wfImportedPage ip) :
    stepLiveAnn fs ips f ann = runMatchedUpdates fs f (emitAnn ips ann) := by
  unfold stepLiveAnn emitAnn
  exact foldUpd_emit fs _ (emitIp ann) ips
    (fun g ip hip => by
      obtain ⟨⟨pkvs, h1⟩, ⟨nas, h2, h3⟩, hn⟩ := hwf ip hip
      exact stepImportedPage_runs fs ann g ip pkvs nas h1 h2 hn h3) f

/-- One live-page step runs its annotations in order. -/
theorem stepLivePage_runs (fs : FS) (ips : List Json) (f : AnnotationForm)
    (lp : Pages) (hwf : ∀ ip ∈ ips, wfImportedPage ip) :
    stepLivePage fs ips f lp = runMatchedUpdates fs f (emitLp ips lp) := by
  unfold stepLivePage emitLp
  exact foldUpd_emit fs _ (emitAnn ips) lp.annotations
    (fun g ann _ => stepLiveAnn_runs fs ips g ann hwf) f

/-- On a well-formed import, the bulk update reduces to the in-order
run of `matchedTriples`. -/
theorem load_eq_runMatchedUpdates (fs : FS) (jfs : String → Option Json)
    (f : AnnotationForm) (path : String) (j : Json) (kvs : List (String × Json))
    (ips : List Json)
    (hj : jfs path = some j) (hobj : j = .obj kvs)
    (hpages : pyGet j "pages" = some (.arr ips)) (hne : ips ≠ [])
    (hwf : ∀ ip ∈ ips, wfImportedPage ip) :
    load_updated_annotaion_json fs jfs f path =
      (match runMatchedUpdates fs f (matchedTriples f.pages ips) with
       | (f1, .ok _) => (f1, .ok true)
       | (f1, .error e) => (f1, .error e)) := by
  unfold load_updated_annotaion_json
  have hcall : jGetCall j "pages" = .ok (pyGet j "pages") := by
    rw [hobj]; rfl
  have htrue : optTruthy (some (Json.arr ips)) = true := by
    simp [optTruthy, jsonTruthy, hne]
  have hfold : foldUpd (stepLivePage fs ips) f f.pages =
      runMatchedUpdates fs f (matchedTriples f.pages ips) := by
    unfold matchedTriples
    exact foldUpd_emit fs _ (emitLp ips) f.pages
      (fun g lp _ => stepLivePage_runs fs ips g lp hwf) f
  simp only [hj, hcall, hpages, htrue, if_true, hfold]

/-- **C5**: on a well-formed import, the bulk update is exactly the
in-order run of `matchedTriples`: every live annotation is matched
against every annotation of every imported page by id equality only,
and each match is applied through the single-field update with the
*imported* page's `page_number` and the imported annotation's body. -/
theorem c5_bulk_update_matches_by_id (fs : FS) (jfs : String → Option Json)
    (f : AnnotationForm) (path : String) (j : Json) (kvs : List (String × Json))
    (ips : List Json)
    (hj : jfs path = some j) (hobj : j = .obj kvs)
    (hpages : pyGet j "pages" = some (.arr ips)) (hne : ips ≠ [])
    (hwf : ∀ ip ∈ ips, wfImportedPage ip) :
    load_updated_annotaion_json fs jfs f path =
      (match runMatchedUpdates fs f (matchedTriples f.pages ips) with
       | (f1, .ok _) => (f1, .ok true)
       | (f1, .error e) => (f1, .error e)) :=
  load_eq_runMatchedUpdates fs jfs f path j kvs ips hj hobj hpages hne hwf

/-- The unmodified export of `exForm`, served at `"x.json"`. -/
def exJfsRound : String → Option Json :=
  fun p => if p = "x.json" then some (export_to_json exForm) else none

/-- Witness for C5: on the concrete exported import, the bulk update is
the run of the matched triples. -/
theorem c5_witness :
    load_updated_annotaion_json exFS exJfsRound exForm "x.json" =
      (match runMatchedUpdates exFS exForm
          (matchedTriples exForm.pages [pageToJson ⟨1, [mkAnnot 0 exWidget]⟩]) with
       | (f1, .ok _) => (f1, .ok true)
       | (f1, .error e) => (f1, .error e)) := by
  refine c5_bulk_update_matches_by_id exFS exJfsRound exForm "x.json"
    (export_to_json exForm) _ [pageToJson ⟨1, [mkAnnot 0 exWidget]⟩]
    rfl rfl rfl (List.cons_ne_nil _ _) ?_
  intro ip hip
  fin_cases hip
  refine ⟨⟨_, rfl⟩, ⟨[annotationToJson (mkAnnot 0 exWidget)], rfl, ?_⟩, ⟨1, rfl⟩⟩
  intro na hna
  fin_cases hna
  exact ⟨⟨_, rfl⟩, ⟨_, rfl⟩⟩

/-! ## Export→import round trip (C4) -/

/-- What the round trip actually does to a widget: the value and label
are untouched, but the rectangle is replaced by its integer-truncated
reconstruction `(int x0, int y0, int x0 + int (x1-x0), int y0 + int
(y1-y0))` and the font is forced to the fixed extraction defaults
(size 8, family Arial), which extraction never read from the widget. -/
def roundWidget (w : Widget) : Widget :=
  {w with
    rect := ⟨(pyInt w.rect.x0 : ℚ), (pyInt w.rect.y0 : ℚ),
             ((pyInt w.rect.x0 + pyInt (w.rect.x1 - w.rect.x0) : ℤ) : ℚ),
             ((pyInt w.rect.y0 + pyInt (w.rect.y1 - w.rect.y0) : ℤ) : ℚ)⟩,
    text_fontsize := 8,
    text_font := "Arial"}

/-- **C4** counterexample: the round trip on `exForm` (extract `exDoc`,
export, re-import the unmodified export) returns success but is *not*
observably a no-op on the widgets: `exWidget` has font size 12 and font
Helv, and the reapplied payload carries the fixed extraction defaults,
leaving the widget with font size 8 and font Arial. -/
theorem c4_counterexample :
    exWidget.text_fontsize = 12 ∧ exWidget.text_font = "Helv" ∧
    (load_updated_annotaion_json exFS exJfsRound exForm "x.json").2 = .ok true ∧
    (load_updated_annotaion_json exFS exJfsRound exForm "x.json").1.doc =
      some ⟨⟨[⟨.ok [.ok (roundWidget exWidget)]⟩]⟩, false⟩ ∧
    (roundWidget exWidget).text_fontsize = 8 ∧
    (roundWidget exWidget).text_font = "Arial" := by
  refine ⟨rfl, rfl, by rfl, by rfl, rfl, rfl⟩

theorem pyGet_annotationToJson_id (a : Annotation) :
    pyGet (annotationToJson a) "id" = some (.str a.id) := rfl

theorem annsOfIp_pageToJson (lp : Pages) :
    annsOfIp (pageToJson lp) = lp.annotations.map annotationToJson := rfl

theorem pageNumOfIp_pageToJson (lp : Pages) :
    pageNumOfIp (pageToJson lp) = lp.page_number := rfl

/-- The `update_body` the bulk import builds from an exported
annotation: the raw value/label/position/formatting of that annotation,
serialised the way export wrote them. -/
theorem bodyOfNa_annotationToJson (a : Annotation) :
    bodyOfNa (annotationToJson a) =
      .obj [("default_value", optStrJson a.data_reference.default_value),
            ("label", optStrJson a.label),
            ("position", positionToJson a.position),
            ("formatting", formattingToJson a.formatting)] := by
  rcases a with ⟨id, ty, pos, fmt, ⟨pathv, dv⟩, lb⟩
  rcases dv with _ | v <;> rcases lb with _ | l <;> rfl

theorem positionOfKwargs_positionToJson (p : Position) :
    positionOfKwargs (positionToJson p) = .ok p := rfl

theorem formattingOfKwargs_default :
    formattingOfKwargs (formattingToJson defaultFormatting) =
      .ok defaultFormatting := rfl

/-- Normalising the round-trip body of an extraction-produced
annotation: the raw value and label, the annotation's own position,
and the fixed default formatting. -/
theorem normalize_roundTrip (a : Annotation) (v : String)
    (hdv : a.data_reference.default_value = some v)
    (hfmt : a.formatting = defaultFormatting) :
    normalizeFieldValue (.raw (bodyOfNa (annotationToJson a))) =
      .ok ⟨some (.str v), a.label.map Json.str, some a.position,
           some defaultFormatting⟩ := by
  rw [bodyOfNa_annotationToJson a, hdv, hfmt]
  rcases a.label with _ | l <;> rfl

/-- Reassigning a widget's own value is a no-op (including the skipped
empty string). -/
theorem applyValue_same (u : UpdateField) (w : Widget)
    (h : u.default_value = some (.str w.field_value)) : applyValue u w = w := by
  unfold applyValue
  simp only [h]
  by_cases hv : w.field_value = ""
  · have he : ("" : String).isEmpty = true := rfl
    simp [jsonTruthy, hv, he]
  · simp [jsonTruthy, isEmpty_false_of_ne hv, pyStr]

/-- Reassigning a widget's own label is a no-op (absent and empty
labels are skipped, a real label is rewritten identically). -/
theorem applyLabel_same (u : UpdateField) (w : Widget)
    (h : u.label = w.field_label.map Json.str) : applyLabel u w = w := by
  unfold applyLabel
  rcases hl : w.field_label with _ | l
  · rw [h, hl]
    rfl
  · rw [h, hl]
    have hm : (some l).map Json.str = some (Json.str l) := rfl
    rw [hm]
    by_cases he : l = ""
    · have h0 : l.isEmpty = true := by rw [he]; rfl
      simp [jsonTruthy, h0]
    · simp only [jsonTruthy, isEmpty_false_of_ne he, Bool.not_false, if_true, pyStr]
      rw [← hl]

/-- Applying the position extracted from a widget's own rectangle
yields the truncated reconstruction recorded by `roundWidget`. -/
theorem applyPosition_mk (u : UpdateField) (w : Widget) (n : ℕ)
    (h : u.position = some (mkAnnot n w).position) :
    applyPosition u w = {w with rect := (roundWidget w).rect} := by
  unfold applyPosition
  simp only [h]
  rfl

/-- Applying the round-trip payload of an extraction-produced
annotation to its own widget produces exactly `roundWidget`. -/
theorem applyUpdate_roundTrip (n : ℕ) (w : Widget) :
    applyUpdateToWidget
      ⟨some (.str w.field_value), w.field_label.map Json.str,
       some (mkAnnot n w).position, some defaultFormatting⟩ w =
      roundWidget w := by
  unfold applyUpdateToWidget
  rw [applyValue_same _ w rfl, applyPosition_mk _ w n rfl,
      applyFormatting_default _ _ defaultFormatting rfl rfl rfl]
  exact applyLabel_same _ _ rfl

/-- All annotation ids of a tree, in order. -/
def treeIds (lps : List Pages) : List String :=
  lps.flatMap fun lp => lp.annotations.map (·.id)

theorem pyEqStr_ann (a a' : Annotation) :
    pyEqStr a.id (pyGet (annotationToJson a') "id") = (a.id == a'.id) := rfl

/-- What one exported annotation contributes to the scan for `ann`. -/
theorem emitNa_eq (ann a' : Annotation) (ip : Json) :
    emitNa ann ip (annotationToJson a') =
      if ann.id == a'.id
      then [(ann.id, pageNumOfIp ip, bodyOfNa (annotationToJson a'))] else [] := by
  unfold emitNa
  rw [pyEqStr_ann]

/-- Exported annotations whose ids all differ from `ann.id` contribute
nothing. -/
theorem flatMap_emitNa_no_match (ann : Annotation) (ip : Json)
    (anns : List Annotation) (h : ∀ a' ∈ anns, a'.id ≠ ann.id) :
    (anns.map annotationToJson).flatMap (emitNa ann ip) = [] := by
  induction anns with
  | nil => rfl
  | cons a rest ih =>
    rw [List.map_cons, List.flatMap_cons, emitNa_eq]
    have hb : (ann.id == a.id) = false :=
      beq_eq_false_iff_ne.mpr (fun hh => (h a (List.mem_cons_self a rest)) hh.symm)
    rw [hb]
    simp only [Bool.false_eq_true, if_false, List.nil_append]
    exact ih (fun x hx => h x (List.mem_cons_of_mem a hx))

/-- Under id uniqueness, scanning a list containing `ann` itself
contributes exactly `ann`'s own invocation. -/
theorem flatMap_emitNa_unique (ann : Annotation) (ip : Json)
    (anns : List Annotation) (hmem : ann ∈ anns)
    (hnodup : (anns.map (·.id)).Nodup) :
    (anns.map annotationToJson).flatMap (emitNa ann ip) =
      [(ann.id, pageNumOfIp ip, bodyOfNa (annotationToJson ann))] := by
  induction anns with
  | nil => exact absurd hmem (List.not_mem_nil ann)
  | cons a rest ih =>
    rw [List.map_cons, List.flatMap_cons, emitNa_eq]
    rw [List.map_cons, List.nodup_cons] at hnodup
    by_cases ha : ann.id = a.id
    · have haa : a = ann := by
        rcases List.mem_cons.mp hmem with h1 | h1
        · exact h1.symm
        · exact absurd (ha ▸ List.mem_map_of_mem (·.id) h1) hnodup.1
      subst haa
      rw [beq_self_eq_true]
      simp only [if_true]
      have hrest : rest.map annotationToJson = List.map annotationToJson rest := rfl
      rw [flatMap_emitNa_no_match a ip rest
        (fun x hx hxid => hnodup.1 (hxid ▸ List.mem_map_of_mem (·.id) hx))]
      rfl
    · have hb : (ann.id == a.id) = false := beq_eq_false_iff_ne.mpr ha
      rw [hb]
      simp only [Bool.false_eq_true, if_false, List.nil_append]
      have hmem' : ann ∈ rest := by
        rcases List.mem_cons.mp hmem with h1 | h1
        · exact absurd (h1 ▸ rfl) ha
        · exact h1
      exact ih hmem' hnodup.2

/-- Under in-page id uniqueness, the scanned annotation's own page
emits exactly one invocation: its own, with that page's number. -/
theorem emitIp_unique (ann : Annotation) (lp0 : Pages)
    (hmem : ann ∈ lp0.annotations)
    (hnodup : (lp0.annotations.map (·.id)).Nodup) :
    emitIp ann (pageToJson lp0) =
      [(ann.id, lp0.page_number, bodyOfNa (annotationToJson ann))] := by
  unfold emitIp
  rw [annsOfIp_pageToJson]
  rw [flatMap_emitNa_unique ann (pageToJson lp0) lp0.annotations hmem hnodup,
      pageNumOfIp_pageToJson]

/-- A page with no matching id emits nothing for `ann`. -/
theorem emitIp_none (ann : Annotation) (lp' : Pages)
    (h : ∀ a' ∈ lp'.annotations, a'.id ≠ ann.id) :
    emitIp ann (pageToJson lp') = [] := by
  unfold emitIp
  rw [annsOfIp_pageToJson]
  exact flatMap_emitNa_no_match ann (pageToJson lp') lp'.annotations h

theorem treeIds_cons (lp : Pages) (rest : List Pages) :
    treeIds (lp :: rest) = lp.annotations.map (·.id) ++ treeIds rest := by
  unfold treeIds
  rw [List.flatMap_cons]

theorem id_mem_treeIds (lps : List Pages) (ann : Annotation) (lp0 : Pages)
    (h0 : lp0 ∈ lps) (hm : ann ∈ lp0.annotations) : ann.id ∈ treeIds lps :=
  List.mem_flatMap.mpr ⟨lp0, h0, List.mem_map_of_mem (·.id) hm⟩

/-- Pages containing no matching id contribute nothing for `ann`. -/
theorem emitAnn_no_match (pages : List Pages) (ann : Annotation)
    (h : ∀ lp' ∈ pages, ∀ a' ∈ lp'.annotations, a'.id ≠ ann.id) :
    (pages.map pageToJson).flatMap (emitIp ann) = [] := by
  induction pages with
  | nil => rfl
  | cons lp rest ih =>
    rw [List.map_cons, List.flatMap_cons,
        emitIp_none ann lp (h lp (List.mem_cons_self lp rest)), List.nil_append]
    exact ih (fun lp' hlp' => h lp' (List.mem_cons_of_mem lp hlp'))

/-- Under global id uniqueness, scanning *all* exported pages for a
live annotation finds exactly its own copy, tagged with its own page's
number. -/
theorem emitAnn_unique (lps : List Pages) (ann : Annotation) (lp0 : Pages)
    (h0 : lp0 ∈ lps) (hm : ann ∈ lp0.annotations)
    (hnd : (treeIds lps).Nodup) :
    emitAnn (lps.map pageToJson) ann =
      [(ann.id, lp0.page_number, bodyOfNa (annotationToJson ann))] := by
  unfold emitAnn
  induction lps with
  | nil => exact absurd h0 (List.not_mem_nil lp0)
  | cons lp rest ih =>
    rw [List.map_cons, List.flatMap_cons]
    rw [treeIds_cons, List.nodup_append] at hnd
    rcases List.mem_cons.mp h0 with h1 | h1
    · subst h1
      rw [emitIp_unique ann lp0 hm hnd.1]
      rw [emitAnn_no_match rest ann (fun lp' hlp' a' ha' hid => by
        exact hnd.2.2 (List.mem_map_of_mem (·.id) hm)
          (hid ▸ id_mem_treeIds rest a' lp' hlp' ha'))]
      rfl
    · rw [emitIp_none ann lp (fun a' ha' hid => by
        exact hnd.2.2 (List.mem_map_of_mem (·.id) ha')
          (hid.symm ▸ id_mem_treeIds rest ann lp0 h1 hm)), List.nil_append]
      exact ih h1 hnd.2.1

/-- A flat-map each of whose steps emits a singleton is a map. -/
theorem flatMap_eq_map_of_singleton {α β : Type} (l : List α) (f : α → List β)
    (g : α → β) (h : ∀ x ∈ l, f x = [g x]) : l.flatMap f = l.map g := by
  induction l with
  | nil => rfl
  | cons x rest ih =>
    rw [List.flatMap_cons, List.map_cons, h x (List.mem_cons_self x rest)]
    rw [ih (fun y hy => h y (List.mem_cons_of_mem x hy))]
    rfl

theorem flatMap_congr_mem {α β : Type} (l : List α) (f f' : α → List β)
    (h : ∀ x ∈ l, f x = f' x) : l.flatMap f = l.flatMap f' := by
  induction l with
  | nil => rfl
  | cons x rest ih =>
    rw [List.flatMap_cons, List.flatMap_cons, h x (List.mem_cons_self x rest),
        ih (fun y hy => h y (List.mem_cons_of_mem x hy))]

/-- Under global id uniqueness, importing a tree's own export produces
exactly one invocation per live annotation, in tree order, with its own
page's number and its own serialised payload. -/
theorem matchedTriples_roundTrip (lps : List Pages)
    (hnd : (treeIds lps).Nodup) :
    matchedTriples lps (lps.map pageToJson) =
      lps.flatMap fun lp => lp.annotations.map fun ann =>
        (ann.id, lp.page_number, bodyOfNa (annotationToJson ann)) := by
  unfold matchedTriples
  refine flatMap_congr_mem lps _ _ (fun lp hlp => ?_)
  unfold emitLp
  exact flatMap_eq_map_of_singleton lp.annotations _ _
    (fun ann hann => emitAnn_unique lps ann lp hlp hann hnd)

/-- A document whose every page enumeration and widget access
succeeds. -/
def mkDoc (pageWs : List (List Widget)) : EngineDoc :=
  ⟨pageWs.map fun ws => ⟨.ok (ws.map .ok)⟩⟩

theorem okWidgets_map_ok (ws : List Widget) : okWidgets (ws.map .ok) = ws := by
  induction ws with
  | nil => rfl
  | cons w rest ih =>
    simp only [List.map_cons, okWidgets, List.filterMap_cons] at ih ⊢
    rw [ih]

theorem extractAnnots_map_ok (ws : List Widget) :
    extractAnnots (ws.map .ok) = wsAnns ws 0 := by
  unfold extractAnnots
  rw [extractAnnotsAux_eq, okWidgets_map_ok]

/-- Python indexing with a non-negative in-range index. -/
theorem pyIndex_nat {α : Type} (xs : List α) (i : ℕ) (h : i < xs.length) :
    pyIndex xs (i : ℤ) = some (i, xs.get ⟨i, h⟩) := by
  unfold pyIndex
  have h1 : (0 : ℤ) ≤ (i : ℤ) ∧ (i : ℤ) < (xs.length : ℤ) := by
    constructor <;> omega
  rw [dif_pos h1]
  simp

theorem getElem?_len_append {α : Type} (xs : List α) (y : α) (ys : List α) :
    (xs ++ y :: ys)[xs.length]? = some y := by
  induction xs with
  | nil => simp
  | cons x rest ih => simpa using ih

theorem set_len_append {α : Type} (xs : List α) (y z : α) (ys : List α) :
    (xs ++ y :: ys).set xs.length z = xs ++ z :: ys := by
  induction xs with
  | nil => rfl
  | cons x rest ih => simp [List.set_cons_succ, ih]

theorem set_of_getElem? {α : Type} (xs : List α) :
    ∀ (i : ℕ) (v : α), xs[i]? = some v → xs.set i v = xs := by
  induction xs with
  | nil => intro i v h; cases h
  | cons x rest ih =>
    intro i v h
    cases i with
    | zero =>
      simp only [List.getElem?_cons_zero, Option.some.injEq] at h
      rw [h]
      rfl
    | succ n =>
      simp only [List.getElem?_cons_succ] at h
      simp [List.set_cons_succ, ih n v h]

/-- The pages of `mkDoc` at an in-range index. -/
theorem mkDoc_pages_get (L : List (List Widget)) (pi : ℕ) (curws : List Widget)
    (h : L[pi]? = some curws) :
    pyIndex (mkDoc L).pages ((pi : ℤ) + 1 - 1) =
      some (pi, ⟨.ok (curws.map .ok)⟩) := by
  have hlt : pi < L.length := by
    by_contra hge
    rw [List.getElem?_eq_none (by omega)] at h
    cases h
  have h2 : ((pi : ℤ) + 1 - 1) = (pi : ℤ) := by ring
  rw [h2]
  have h3 : pi < (mkDoc L).pages.length := by
    simpa [mkDoc] using hlt
  rw [pyIndex_nat _ pi h3]
  have h6 : (mkDoc L).pages[pi]? = some (⟨.ok (curws.map .ok)⟩ : EnginePage) := by
    simp [mkDoc, List.getElem?_map, h]
  rw [List.getElem?_eq_getElem h3] at h6
  have h4 : (mkDoc L).pages.get ⟨pi, h3⟩ = ⟨.ok (curws.map .ok)⟩ :=
    Option.some.inj h6
  rw [h4]

/-- `setWidget` on an all-healthy document replaces the widget in the
page list. -/
theorem setWidget_mkDoc (L : List (List Widget)) (pi wi : ℕ)
    (curws : List Widget) (w' : Widget) (h : L[pi]? = some curws) :
    setWidget (mkDoc L) pi wi w' = mkDoc (L.set pi (curws.set wi w')) := by
  unfold setWidget
  have h1 : (mkDoc L).pages[pi]? = some (⟨.ok (curws.map .ok)⟩ : EnginePage) := by
    simp [mkDoc, List.getElem?_map, h]
  split
  · next heq =>
    rw [h1] at heq
    exact Option.noConfusion heq
  · next p heq =>
    rw [h1] at heq
    obtain rfl : p = ⟨.ok (curws.map .ok)⟩ := (Option.some.inj heq).symm
    show (⟨(mkDoc L).pages.set pi
        ⟨Except.map (fun items => items.set wi (.ok w'))
          (.ok (curws.map .ok))⟩⟩ : EngineDoc) = _
    unfold mkDoc
    simp only [Except.map]
    congr 1
    rw [List.map_set, List.map_set]

theorem roundWidget_field_name (w : Widget) :
    (roundWidget w).field_name = w.field_name := rfl

theorem mkAnnot_id (n : ℕ) (w : Widget) (h : w.field_name ≠ "") :
    (mkAnnot n w).id = w.field_name := by
  unfold mkAnnot
  simp [h]

/-- Scanning a page whose already-updated prefix contains no widget
named like `w` finds `w` right after the prefix, unrounded. -/
theorem find_round_prefix (done : List Widget) (w : Widget) (rest : List Widget) :
    ∀ i : ℕ, (∀ x ∈ done, x.field_name ≠ w.field_name) →
    find_widget_by_annotation_id
      (done.map (fun x => .ok (roundWidget x)) ++ (w :: rest).map .ok)
      w.field_name i = .ok (some (i + done.length, w)) := by
  induction done with
  | nil =>
    intro i _
    show find_widget_by_annotation_id (.ok w :: rest.map .ok) w.field_name i = _
    unfold find_widget_by_annotation_id
    simp
  | cons d rest' ih =>
    intro i hd
    show find_widget_by_annotation_id (.ok (roundWidget d) :: _) w.field_name i = _
    unfold find_widget_by_annotation_id
    rw [roundWidget_field_name]
    have hne : d.field_name ≠ w.field_name := hd d (List.mem_cons_self d rest')
    simp only [hne, if_false]
    have harith : i + (d :: rest').length = (i + 1) + rest'.length := by
      simp
      omega
    rw [harith]
    exact ih (i + 1) (fun x hx => hd x (List.mem_cons_of_mem d hx))

/-- One round-trip update call on an all-healthy document: the targeted
widget — located after an already-updated prefix — is replaced by its
`roundWidget`, and the handle stays open on the mutated document. -/
theorem update_one_round (fs : FS) (f : AnnotationForm) (L : List (List Widget))
    (pi : ℕ) (done : List Widget) (w : Widget) (todo : List Widget)
    (hdoc : f.doc = some (DocHandle.mk (mkDoc L) false))
    (hL : L[pi]? = some (done.map roundWidget ++ w :: todo))
    (hname : w.field_name ≠ "")
    (hd : ∀ x ∈ done, x.field_name ≠ w.field_name) :
    update_field_by_anotation_id_and_page_number fs f (mkAnnot 0 w).id
        ((pi : ℤ) + 1) (.raw (bodyOfNa (annotationToJson (mkAnnot 0 w)))) =
      ({f with doc := some ⟨mkDoc (L.set pi
          ((done ++ [w]).map roundWidget ++ todo)), false⟩}, .ok true) := by
  have hfind : find_widget_by_annotation_id
      ((done.map roundWidget ++ w :: todo).map .ok) (mkAnnot 0 w).id 0 =
      .ok (some (done.length, w)) := by
    rw [mkAnnot_id 0 w hname, List.map_append, List.map_map]
    have := find_round_prefix done w todo 0 hd
    simpa using this
  have hmain := update_field_by_id_found fs f (mkDoc L) (mkAnnot 0 w).id
    ((pi : ℤ) + 1) (.raw (bodyOfNa (annotationToJson (mkAnnot 0 w))))
    pi ⟨.ok ((done.map roundWidget ++ w :: todo).map .ok)⟩
    ((done.map roundWidget ++ w :: todo).map .ok) done.length w
    ⟨some (.str w.field_value), w.field_label.map Json.str,
     some (mkAnnot 0 w).position, some defaultFormatting⟩
    hdoc (mkDoc_pages_get L pi _ hL) rfl hfind
    (normalize_roundTrip (mkAnnot 0 w) w.field_value rfl rfl)
  rw [hmain, applyUpdate_roundTrip 0 w, setWidget_mkDoc L pi done.length _ _ hL]
  have hset : (done.map roundWidget ++ w :: todo).set done.length (roundWidget w) =
      (done ++ [w]).map roundWidget ++ todo := by
    have h1 : done.length = (done.map roundWidget).length := by
      rw [List.length_map]
    rw [h1, set_len_append]
    rw [List.map_append]
    simp
  rw [hset]

theorem mkAnnot_indep (n : ℕ) (w : Widget) (h : w.field_name ≠ "") :
    mkAnnot n w = mkAnnot 0 w := by
  unfold mkAnnot
  simp [h]

theorem wsAnns_map (ws : List Widget) (hname : ∀ w ∈ ws, w.field_name ≠ "") :
    ∀ n, wsAnns ws n = ws.map (mkAnnot 0) := by
  induction ws with
  | nil => intro n; rfl
  | cons w rest ih =>
    intro n
    show mkAnnot n w :: wsAnns rest (n + 1) = mkAnnot 0 w :: rest.map _
    rw [mkAnnot_indep n w (hname w (List.mem_cons_self w rest)),
        ih (fun x hx => hname x (List.mem_cons_of_mem w hx)) (n + 1)]

/-- Unfolding one invocation of a matched-update run. -/
theorem runMatchedUpdates_cons (fs : FS) (f : AnnotationForm)
    (t : String × ℤ × Json) (ts : List (String × ℤ × Json)) :
    runMatchedUpdates fs f (t :: ts) =
      (match update_field_by_anotation_id_and_page_number fs f t.1 t.2.1
          (.raw t.2.2) with
       | (f1, .ok _) => runMatchedUpdates fs f1 ts
       | (f1, .error e) => (f1, .error e)) := by
  show foldUpd _ f (t :: ts) = _
  rw [foldUpd_cons]
  rcases h : update_field_by_anotation_id_and_page_number fs f t.1 t.2.1
      (.raw t.2.2) with ⟨f1, r⟩
  cases r with
  | ok b =>
    simp [Except.map]
    rfl
  | error e => simp [Except.map]

/-- Running the remaining updates of one page, its prefix already
updated: every remaining widget gets rounded in place and the run
succeeds. -/
theorem run_page_round (fs : FS) (pi : ℕ) :
    ∀ (todo done : List Widget) (L : List (List Widget)) (f : AnnotationForm),
      f.doc = some (DocHandle.mk (mkDoc L) false) →
      L[pi]? = some (done.map roundWidget ++ todo) →
      (∀ x ∈ done ++ todo, x.field_name ≠ "") →
      ((done ++ todo).map (·.field_name)).Nodup →
      runMatchedUpdates fs f
        (todo.map fun w => ((mkAnnot 0 w).id, (pi : ℤ) + 1,
          bodyOfNa (annotationToJson (mkAnnot 0 w)))) =
        ({f with doc := some ⟨mkDoc (L.set pi ((done ++ todo).map roundWidget)),
           false⟩}, .ok ()) := by
  intro todo
  induction todo with
  | nil =>
    intro done L f hdoc hL hname hnd
    rw [List.append_nil] at hL ⊢
    rw [set_of_getElem? L pi (done.map roundWidget) hL]
    show (f, Except.ok ()) = _
    rw [← hdoc]
  | cons w todo' ih =>
    intro done L f hdoc hL hname hnd
    have hpi : pi < L.length := by
      by_contra hge
      rw [List.getElem?_eq_none (by omega)] at hL
      cases hL
    have hwname : w.field_name ≠ "" :=
      hname w (List.mem_append.mpr (.inr (List.mem_cons_self w todo')))
    have hd : ∀ x ∈ done, x.field_name ≠ w.field_name := by
      intro x hx hxw
      rw [List.map_append, List.nodup_append] at hnd
      exact hnd.2.2 (List.mem_map_of_mem (·.field_name) hx)
        (hxw ▸ List.mem_map_of_mem (·.field_name) (List.mem_cons_self w todo'))
    have hstep := update_one_round fs f L pi done w todo' hdoc hL hwname hd
    rw [List.map_cons, runMatchedUpdates_cons]
    rw [hstep]
    simp only []
    have hL' : (L.set pi ((done ++ [w]).map roundWidget ++ todo'))[pi]? =
        some ((done ++ [w]).map roundWidget ++ todo') :=
      List.getElem?_set_eq_of_lt _ (by simpa using hpi)
    have hassoc : (done ++ [w]) ++ todo' = done ++ w :: todo' := by
      simp
    have hih := ih (done ++ [w])
      (L.set pi ((done ++ [w]).map roundWidget ++ todo'))
      {f with doc := some ⟨mkDoc (L.set pi ((done ++ [w]).map roundWidget ++ todo')), false⟩}
      rfl hL' (by rw [hassoc]; exact hname) (by rw [hassoc]; exact hnd)
    rw [hih, List.set_set, hassoc]

/-- The invocations one live page contributes: one per annotation, in
order, with its own page number and its serialised payload. -/
def pageTriples (lp : Pages) : List (String × ℤ × Json) :=
  lp.annotations.map fun ann =>
    (ann.id, lp.page_number, bodyOfNa (annotationToJson ann))

/-- The tree extraction produces from an all-healthy document, page
numbers starting above index `i`. -/
def specTree (i : ℕ) : List (List Widget) → List Pages
  | [] => []
  | ws :: rest =>
    (if ws.isEmpty then [] else [⟨(i : ℤ) + 1, wsAnns ws 0⟩]) ++
      specTree (i + 1) rest

theorem specTree_cons (i : ℕ) (ws : List Widget) (rest : List (List Widget)) :
    specTree i (ws :: rest) =
      (if ws.isEmpty then [] else [⟨(i : ℤ) + 1, wsAnns ws 0⟩]) ++
        specTree (i + 1) rest := rfl

/-- On an all-healthy document the generic page description reduces to
`specTree`. -/
theorem specTree_eq (pageWs : List (List Widget)) :
    ∀ i, specTree i pageWs = specPagesFrom i (pageWs.map (List.map .ok)) := by
  induction pageWs with
  | nil => intro i; rfl
  | cons ws rest ih =>
    intro i
    rw [List.map_cons, specTree_cons, specPagesFrom_cons, extractAnnots_map_ok,
        ih (i + 1)]
    cases hws : ws with
    | nil => simp [wsAnns]
    | cons w ws' => simp [wsAnns]

theorem flatten_nil_all_nil {α : Type} (l : List (List α))
    (h : l.flatten = []) : ∀ ws ∈ l, ws = [] := by
  intro ws hws
  rcases ws with _ | ⟨x, ws'⟩
  · rfl
  · exact absurd h (by
      have : x ∈ l.flatten := List.mem_flatten.mpr ⟨_, hws, List.mem_cons_self x ws'⟩
      intro hnil
      rw [hnil] at this
      exact List.not_mem_nil x this)

theorem flatten_nil_map_id {α : Type} (g : α → α) (l : List (List α))
    (h : l.flatten = []) : l.map (List.map g) = l := by
  induction l with
  | nil => rfl
  | cons ws rest ih =>
    rw [List.flatten_cons] at h
    have h1 : ws = [] := by
      cases hws : ws with
      | nil => rfl
      | cons x ws' =>
        rw [hws, List.cons_append] at h
        cases h
    have h2 : rest.flatten = [] := by
      rw [h1] at h
      simpa using h
    rw [List.map_cons, h1, ih h2]
    rfl

/-- Running the round-trip invocations of all remaining pages: with the
handle open on the partially rounded document, every remaining page's
widgets get rounded and the run succeeds. -/
theorem run_tree_round (fs : FS) :
    ∀ (rest done : List (List Widget)) (f : AnnotationForm),
      f.doc = some (DocHandle.mk
        (mkDoc (done.map (List.map roundWidget) ++ rest)) false) →
      (∀ ws ∈ rest, ∀ w ∈ ws, w.field_name ≠ "") →
      (∀ ws ∈ rest, (ws.map (·.field_name)).Nodup) →
      runMatchedUpdates fs f ((specTree done.length rest).flatMap pageTriples) =
        ({f with doc := some (DocHandle.mk
            (mkDoc ((done ++ rest).map (List.map roundWidget))) false)}, .ok ()) := by
  intro rest
  induction rest with
  | nil =>
    intro done f hdoc _ _
    rw [List.append_nil] at hdoc
    show (f, Except.ok ()) = _
    rw [List.append_nil, ← hdoc]
  | cons ws rest' ih =>
    intro done f hdoc hname hnd
    rw [specTree_cons]
    by_cases hws : ws.isEmpty
    · have hwsnil : ws = [] := List.isEmpty_iff.mp hws
      subst hwsnil
      rw [if_pos hws, List.nil_append]
      have hlen : done.length + 1 = (done ++ [([] : List Widget)]).length := by
        simp
      rw [hlen]
      have hih := ih (done ++ [[]])
        f (by
          rw [List.map_append]
          simpa using hdoc)
        (fun ws' hws' => hname ws' (List.mem_cons_of_mem _ hws'))
        (fun ws' hws' => hnd ws' (List.mem_cons_of_mem _ hws'))
      rw [hih]
      have hfin : ((done ++ [[]]) ++ rest') = done ++ [] :: rest' := by
        simp
      rw [hfin]
    · rw [if_neg hws, List.singleton_append, List.flatMap_cons]
      have hnamews : ∀ w ∈ ws, w.field_name ≠ "" :=
        hname ws (List.mem_cons_self ws rest')
      have hpt : pageTriples ⟨(done.length : ℤ) + 1, wsAnns ws 0⟩ =
          ws.map fun w => ((mkAnnot 0 w).id, (done.length : ℤ) + 1,
            bodyOfNa (annotationToJson (mkAnnot 0 w))) := by
        unfold pageTriples
        rw [wsAnns_map ws hnamews 0, List.map_map]
        rfl
      rw [hpt, runMatchedUpdates_append]
      have hL : (done.map (List.map roundWidget) ++ ws :: rest')[done.length]? =
          some (([] : List Widget).map roundWidget ++ ws) := by
        have h1 : done.length = (done.map (List.map roundWidget)).length := by
          rw [List.length_map]
        rw [h1, getElem?_len_append]
        rfl
      have hpage := run_page_round fs done.length ws []
        (done.map (List.map roundWidget) ++ ws :: rest') f hdoc hL
        (by simpa using hnamews)
        (by simpa using hnd ws (List.mem_cons_self ws rest'))
      have hset : (done.map (List.map roundWidget) ++ ws :: rest').set done.length
          (([] ++ ws).map roundWidget) =
          (done ++ [ws]).map (List.map roundWidget) ++ rest' := by
        have h1 : done.length = (done.map (List.map roundWidget)).length := by
          rw [List.length_map]
        rw [List.nil_append, h1, set_len_append, List.map_append]
        simp
      rw [hset] at hpage
      rw [hpage]
      show runMatchedUpdates fs
          {f with doc := some (DocHandle.mk
            (mkDoc ((done ++ [ws]).map (List.map roundWidget) ++ rest')) false)}
          ((specTree (done.length + 1) rest').flatMap pageTriples) = _
      have hlen : done.length + 1 = (done ++ [ws]).length := by
        simp
      have hih := ih (done ++ [ws])
        {f with doc := some (DocHandle.mk
          (mkDoc ((done ++ [ws]).map (List.map roundWidget) ++ rest')) false)}
        rfl
        (fun ws' hws' => hname ws' (List.mem_cons_of_mem _ hws'))
        (fun ws' hws' => hnd ws' (List.mem_cons_of_mem _ hws'))
      have hfin : ((done ++ [ws]) ++ rest') = done ++ ws :: rest' := by
        simp
      rw [hfin] at hih
      rw [hlen, hih]

theorem pyInt_intCast (n : ℤ) : pyInt ((n : ℤ) : ℚ) = n := by
  unfold pyInt
  split
  · rw [Int.ceil_intCast]
  · rw [Int.floor_intCast]

/-- A truthy-falsy handle is reopened before the first of a non-empty
run of invocations, after which the run proceeds identically. -/
theorem runMatchedUpdates_reopen (fs : FS) (f : AnnotationForm) (d : EngineDoc)
    (t : String × ℤ × Json) (ts : List (String × ℤ × Json))
    (h1 : docTruthy f.doc = false) (h2 : fs f.pdf_path = some d) :
    runMatchedUpdates fs f (t :: ts) =
      runMatchedUpdates fs {f with doc := some ⟨d, false⟩} (t :: ts) := by
  rw [runMatchedUpdates_cons, runMatchedUpdates_cons,
      update_reopen_eq fs f d t.1 t.2.1 (.raw t.2.2) h1 h2]

/-- A document with at least one widget yields at least one round-trip
invocation. -/
theorem triples_ne_nil (pageWs : List (List Widget)) :
    ∀ k, pageWs.flatten ≠ [] →
      (specTree k pageWs).flatMap pageTriples ≠ [] := by
  induction pageWs with
  | nil => intro k h; exact absurd rfl h
  | cons ws rest ih =>
    intro k h
    rw [specTree_cons, List.flatMap_append]
    cases hws : ws with
    | nil =>
      subst hws
      simp only [List.isEmpty_nil, if_true, List.flatMap_nil, List.nil_append]
      refine ih (k + 1) ?_
      simpa using h
    | cons w ws' =>
      subst hws
      simp [pageTriples, wsAnns]

/-- A document with at least one widget yields a non-empty tree. -/
theorem specTree_ne_nil (pageWs : List (List Widget)) :
    ∀ k, pageWs.flatten ≠ [] → specTree k pageWs ≠ [] := by
  induction pageWs with
  | nil => intro k h; exact absurd rfl h
  | cons ws rest ih =>
    intro k h
    rw [specTree_cons]
    cases hws : ws with
    | nil =>
      subst hws
      simp only [List.isEmpty_nil, if_true, List.nil_append]
      refine ih (k + 1) ?_
      simpa using h
    | cons w ws' =>
      subst hws
      simp

/-- The ids of a page's extracted annotations are its widgets' names. -/
theorem wsAnns_ids (ws : List Widget) (hname : ∀ w ∈ ws, w.field_name ≠ "") :
    (wsAnns ws 0).map (·.id) = ws.map (·.field_name) := by
  rw [wsAnns_map ws hname 0, List.map_map]
  exact List.map_congr_left (fun w hw => mkAnnot_id 0 w (hname w hw))

/-- The tree's ids are exactly the document's widget names, in order. -/
theorem treeIds_specTree (pageWs : List (List Widget))
    (hname : ∀ ws ∈ pageWs, ∀ w ∈ ws, w.field_name ≠ "") :
    ∀ k, treeIds (specTree k pageWs) = pageWs.flatten.map (·.field_name) := by
  induction pageWs with
  | nil => intro k; rfl
  | cons ws rest ih =>
    intro k
    rw [specTree_cons, List.flatten_cons, List.map_append]
    unfold treeIds
    rw [List.flatMap_append]
    have hrest := ih (fun ws' h' => hname ws' (List.mem_cons_of_mem ws h')) (k + 1)
    unfold treeIds at hrest
    rw [hrest]
    cases hws : ws with
    | nil => simp
    | cons w ws' =>
      subst hws
      rw [if_neg (by simp)]
      rw [List.flatMap_cons, List.flatMap_nil, List.append_nil]
      rw [wsAnns_ids _ (hname _ (List.mem_cons_self _ rest))]

/-- In-page name uniqueness follows from document-wide uniqueness. -/
theorem page_names_nodup (pageWs : List (List Widget))
    (hnd : (pageWs.flatten.map (·.field_name)).Nodup) :
    ∀ ws ∈ pageWs, (ws.map (·.field_name)).Nodup := by
  intro ws hws
  exact ((List.sublist_join_of_mem hws).map (·.field_name)).nodup hnd

/-- Every exported page is a well-formed import. -/
theorem wf_pageToJson (lp : Pages) : wfImportedPage (pageToJson lp) := by
  refine ⟨⟨_, rfl⟩, ⟨lp.annotations.map annotationToJson, rfl, ?_⟩,
    ⟨lp.page_number, rfl⟩⟩
  intro na hna
  obtain ⟨a, _, rfl⟩ := List.mem_map.mp hna
  exact ⟨⟨_, rfl⟩, ⟨_, rfl⟩⟩

/-- `roundWidget` never touches the value, label or name. -/
theorem roundWidget_keeps (w : Widget) :
    (roundWidget w).field_value = w.field_value ∧
    (roundWidget w).field_label = w.field_label ∧
    (roundWidget w).field_name = w.field_name := ⟨rfl, rfl, rfl⟩

/-- On a widget already carrying the extraction defaults and an
integer-coordinate rectangle, the round trip is a true no-op. -/
theorem roundWidget_noop (w : Widget) (h8 : w.text_fontsize = 8)
    (ha : w.text_font = "Arial")
    (hint : ∃ a b c d : ℤ, w.rect = ⟨(a : ℚ), (b : ℚ), (c : ℚ), (d : ℚ)⟩) :
    roundWidget w = w := by
  obtain ⟨a, b, c, d, hr⟩ := hint
  rcases w with ⟨fn, fts, fv, fl, rect, tfs, tf⟩
  simp only at h8 ha hr
  subst h8 ha hr
  unfold roundWidget
  simp only [Widget.mk.injEq, Rect.mk.injEq, true_and, and_true]
  have hca : ((c : ℚ) - (a : ℚ)) = (((c - a : ℤ) : ℤ) : ℚ) := by push_cast; ring
  have hdb : ((d : ℚ) - (b : ℚ)) = (((d - b : ℤ) : ℤ) : ℚ) := by push_cast; ring
  refine ⟨?_, ?_, ?_, ?_⟩
  · rw [pyInt_intCast]
  · rw [pyInt_intCast]
  · rw [hca, pyInt_intCast, pyInt_intCast]
    push_cast
    ring
  · rw [hdb, pyInt_intCast, pyInt_intCast]
    push_cast
    ring

/-- **C4** amended: feeding a tree's unmodified export back through the
bulk update succeeds and leaves every widget's value and label
unchanged, but it is *not* observably a no-op in general: every widget
is left with the fixed extraction defaults font size 8 and font family
Arial (attributes extraction never read), and with its rectangle
replaced by the integer-truncated reconstruction; the round trip is a
no-op exactly on widgets that already carry those defaults and an
integer-coordinate rectangle.  Stated for documents whose widgets are
healthy, carry nonempty document-wide-unique field names, and contain
at least one widget. -/
theorem c4_round_trip_applies_defaults (fs : FS) (jfs : String → Option Json)
    (path jpath nm : String) (yr : ℤ) (ver : String)
    (pageWs : List (List Widget))
    (hfs : fs path = some (mkDoc pageWs))
    (hname : ∀ ws ∈ pageWs, ∀ w ∈ ws, w.field_name ≠ "")
    (hnd : (pageWs.flatten.map (·.field_name)).Nodup)
    (hfl : pageWs.flatten ≠ [])
    (hjfs : jfs jpath = some (export_to_json
      (AnnotationForm.init fs path nm yr ver).1)) :
    load_updated_annotaion_json fs jfs
        (AnnotationForm.init fs path nm yr ver).1 jpath =
      ({(AnnotationForm.init fs path nm yr ver).1 with
         doc := some (DocHandle.mk
           (mkDoc (pageWs.map (List.map roundWidget))) false)}, .ok true) ∧
    (∀ w : Widget, (roundWidget w).field_value = w.field_value ∧
      (roundWidget w).field_label = w.field_label) ∧
    (∀ w : Widget, w.text_fontsize = 8 → w.text_font = "Arial" →
      (∃ a b c d : ℤ, w.rect = ⟨(a : ℚ), (b : ℚ), (c : ℚ), (d : ℚ)⟩) →
      roundWidget w = w) := by
  have hpagesEq : (mkDoc pageWs).pages =
      (pageWs.map (List.map Except.ok)).map
        (fun its => (⟨.ok its⟩ : EnginePage)) := by
    unfold mkDoc
    rw [List.map_map]
    rfl
  have hinit : AnnotationForm.init fs path nm yr ver =
      (⟨path, nm, yr, ver, none, specTree 0 pageWs⟩, .ok ()) := by
    unfold AnnotationForm.init
    rw [read_pdf_opened _ _ _ hfs, hpagesEq, walkPages_ok, specTree_eq pageWs 0]
    rfl
  have hFval : (AnnotationForm.init fs path nm yr ver).1 =
      ⟨path, nm, yr, ver, none, specTree 0 pageWs⟩ := by
    rw [hinit]
  refine ⟨?_, fun w => ⟨rfl, rfl⟩, roundWidget_noop⟩
  have hne : (AnnotationForm.init fs path nm yr ver).1.pages.map pageToJson ≠ [] := by
    rw [hFval]
    simpa using specTree_ne_nil pageWs 0 hfl
  have hwf : ∀ ip ∈ (AnnotationForm.init fs path nm yr ver).1.pages.map pageToJson,
      wfImportedPage ip := by
    intro ip hip
    obtain ⟨lp, _, rfl⟩ := List.mem_map.mp hip
    exact wf_pageToJson lp
  have hload := load_eq_runMatchedUpdates fs jfs
    (AnnotationForm.init fs path nm yr ver).1 jpath
    (export_to_json (AnnotationForm.init fs path nm yr ver).1) _
    ((AnnotationForm.init fs path nm yr ver).1.pages.map pageToJson)
    hjfs rfl rfl hne hwf
  have htreeNd : (treeIds (specTree 0 pageWs)).Nodup := by
    rw [treeIds_specTree pageWs hname 0]
    exact hnd
  have htri : matchedTriples (AnnotationForm.init fs path nm yr ver).1.pages
      ((AnnotationForm.init fs path nm yr ver).1.pages.map pageToJson) =
      (specTree 0 pageWs).flatMap pageTriples := by
    rw [hFval]
    show matchedTriples (specTree 0 pageWs) ((specTree 0 pageWs).map pageToJson) = _
    rw [matchedTriples_roundTrip _ htreeNd]
    rfl
  have hrun : runMatchedUpdates fs (AnnotationForm.init fs path nm yr ver).1
      ((specTree 0 pageWs).flatMap pageTriples) =
      ({(AnnotationForm.init fs path nm yr ver).1 with
        doc := some (DocHandle.mk
          (mkDoc (pageWs.map (List.map roundWidget))) false)}, .ok ()) := by
    obtain ⟨t, ts, hts⟩ :=
      List.exists_cons_of_ne_nil (triples_ne_nil pageWs 0 hfl)
    rw [hts, runMatchedUpdates_reopen fs _ (mkDoc pageWs) t ts
      (by rw [hFval]; rfl) (by rw [hFval]; exact hfs), ← hts]
    have hstep := run_tree_round fs pageWs []
      {(AnnotationForm.init fs path nm yr ver).1 with
        doc := some (DocHandle.mk (mkDoc pageWs) false)}
      rfl hname (page_names_nodup pageWs hnd)
    exact hstep
  rw [hload, htri, hrun]

/-- Witness for C4 at the concrete one-widget document: the round trip
succeeds and the document's single widget becomes its default-stamped,
rect-truncated image. -/
theorem c4_witness :
    load_updated_annotaion_json exFS exJfsRound exForm "x.json" =
      ({exForm with doc := some (DocHandle.mk
          (mkDoc [[roundWidget exWidget]]) false)}, .ok true) := by
  have h := c4_round_trip_applies_defaults exFS exJfsRound "a.pdf" "x.json"
    "n" 2024 "1" [[exWidget]] rfl (by decide) (by decide) (by simp) rfl
  exact h.1
